import Mathlib

/-!
# Verification of the 2D-Game-Basics authoritative game server

Shallow embedding of `src/constants.py`, `src/server/entities.py` and
`src/server/game.py` (class `GameServer`).  Python floats are modelled as
exact rationals (`ℚ`), Python ints as `Int`/`Nat`, insertion-ordered dicts
as lists (keyed by the id stored in each entry), and in-place mutation as
functional update.  `time.time()` and the results of `random.*` calls are
passed in as explicit parameters.  `math.hypot` computes a square root that
has no exact rational counterpart, so the projectile tick takes the
hypotenuse function as a parameter `hyp`; theorems quantify over it (and it
is exact on the axis-aligned inputs used in concrete scenarios, where
`hypot x 0 = abs x`).  Networking, the world-snapshot serialization
(`build_world_msg`), threading and socket I/O are elided: outbound traffic
is modelled as a list of `Out` values returned next to the new state.
-/

namespace Game2D

/- Core marks the arithmetic on `Rat` `@[irreducible]`, which blocks
`decide` from evaluating the model on concrete inputs; restore the default
reducibility so concrete scenarios compute. -/
attribute [local semireducible] Rat.mul Rat.add Rat.sub Rat.inv

/-! ## Constants (src/constants.py) -/

def MAX_PLAYERS : Nat := 6

def NUM_TEAMS : Nat := 3

def TICK_RATE : Nat := 20

def PLAYER_MAX_HP : Int := 100

def RESPAWN_DELAY : ℚ := 3

def RESPAWN_SHIELD : ℚ := 2

def PLAYER_W : ℚ := 8

def PLAYER_H : ℚ := 16

def KILL_LIMIT : Nat := 15

def SHOP_X : ℚ := 464

def SHOP_Y : ℚ := 256

def SHOP_RADIUS : ℚ := 60

def STARTING_COINS : Int := 30

def KILL_COIN_REWARD : Int := 15

def DROPPED_WEAPON_LIFE : ℚ := 20

def WEAPON_PICKUP_DELAY : ℚ := 3/5

/-- Weapon identifiers: the keys of the `WEAPONS` dict.  The client can only
hold one of these (the server validates `weapon_id in WEAPONS`). -/
inductive WeaponId where
  | pistol
  | auto
  | semi_auto
  | sniper
  | shotgun
deriving DecidableEq

/-- The server-relevant fields of a `WEAPONS` entry (`name`, `fire_mode` and
`color` are client-side visuals and are elided). -/
structure WeaponSpec where
  damage : Int
  range_px : ℚ
  reload_time : ℚ
  bullet_speed : ℚ
  pellets : Nat
  spread : ℚ
  price : Int
deriving DecidableEq

def WEAPONS : WeaponId → WeaponSpec
  | .pistol    => { damage := 20, range_px := 240, reload_time := 2/5,
                    bullet_speed := 7, pellets := 1, spread := 0, price := 0 }
  | .auto      => { damage := 12, range_px := 280, reload_time := 1/10,
                    bullet_speed := 8, pellets := 1, spread := 0, price := 50 }
  | .semi_auto => { damage := 28, range_px := 320, reload_time := 3/10,
                    bullet_speed := 9, pellets := 1, spread := 0, price := 60 }
  | .sniper    => { damage := 70, range_px := 800, reload_time := 9/5,
                    bullet_speed := 14, pellets := 1, spread := 0, price := 80 }
  | .shotgun   => { damage := 18, range_px := 130, reload_time := 9/10,
                    bullet_speed := 6, pellets := 5, spread := 3, price := 70 }

/-- Power-up kinds (`POWER_UP_TYPES` entries). -/
inductive PUType where
  | speed
  | jump
  | shield
  | rapid_fire
  | double_jump
deriving DecidableEq

def POWER_UP_TYPES : List PUType :=
  [.speed, .jump, .shield, .rapid_fire, .double_jump]

/-- Position of a power-up type in `POWER_UP_TYPES`
(`POWER_UP_TYPES.index(pu.pu_type)`). -/
def puTypeIdx : PUType → Nat
  | .speed => 0
  | .jump => 1
  | .shield => 2
  | .rapid_fire => 3
  | .double_jump => 4

def POWER_UP_DURATIONS : PUType → ℚ
  | .speed => 10
  | .jump => 10
  | .shield => 5
  | .rapid_fire => 8
  | .double_jump => 10

def NUM_POWER_UPS : Nat := 7

def POWER_UP_RESPAWN_TIME : ℚ := 15

def POWER_UP_LIFETIME : ℚ := 12

/-- Breakable object kinds. -/
inductive ObjType where
  | tree
  | barrel
  | crate
deriving DecidableEq

def BREAKABLE_DEFS : List (ObjType × ℚ × ℚ) :=
  [(.tree, 80, 352), (.tree, 208, 352), (.tree, 768, 352), (.tree, 928, 352),
   (.barrel, 64, 304), (.barrel, 896, 304),
   (.crate, 272, 256), (.crate, 720, 256),
   (.crate, 288, 208), (.crate, 656, 208),
   (.tree, 112, 160), (.tree, 832, 160),
   (.barrel, 480, 112),
   (.crate, 128, 64), (.crate, 800, 64)]

def BREAKABLE_HP : ObjType → Int
  | .tree => 3
  | .barrel => 1
  | .crate => 2

def BREAKABLE_COIN_RANGE : ObjType → Int × Int
  | .tree => (8, 16)
  | .barrel => (4, 10)
  | .crate => (6, 14)

def BREAKABLE_PROJECTILE_DAMAGE : Int := 10

def TEAM_SPAWN_AREAS : Int → Option (List (ℚ × ℚ))
  | 0 => some [(48, 336), (64, 336), (80, 336)]
  | 1 => some [(896, 336), (880, 336), (864, 336)]
  | 2 => some [(240, 336), (256, 336), (272, 336)]
  | _ => none

/-- Facing direction.  The wire value is a string compared against
`"right"`; any other value behaves as left, so two cases suffice. -/
inductive Facing where
  | left
  | right
deriving DecidableEq

/-! ## Entity dataclasses (src/server/entities.py) -/

structure PlayerState where
  player_id : Nat
  name : String
  team_id : Int := -1
  x : ℚ := 100
  y : ℚ := 100
  vx : ℚ := 0
  vy : ℚ := 0
  on_ground : Bool := false
  facing : Facing := .right
  alive : Bool := true
  hp : Int := PLAYER_MAX_HP
  respawn_timer : ℚ := 0
  ready : Bool := false
  shield_until : ℚ := 0
  rapid_fire_until : ℚ := 0
  weapon : WeaponId := .pistol
  coins : Int := STARTING_COINS
  reload_until : ℚ := 0
  kills : Nat := 0
deriving DecidableEq

structure Projectile where
  proj_id : Nat
  owner_id : Nat
  team_id : Int
  x : ℚ
  y : ℚ
  vx : ℚ
  vy : ℚ
  lifetime : ℚ := 3
  damage : Int := 20
  weapon_id : WeaponId := .pistol
  range_px : ℚ := 300
  dist : ℚ := 0
deriving DecidableEq

structure PowerUp where
  pu_id : Nat
  pu_type : PUType
  spawn_x : ℚ
  spawn_y : ℚ
  active : Bool := true
  respawn_timer : ℚ := 0
  lifetime_timer : ℚ := POWER_UP_LIFETIME
deriving DecidableEq

structure DroppedWeapon where
  drop_id : Nat
  weapon_id : WeaponId
  x : ℚ
  y : ℚ
  lifetime : ℚ := DROPPED_WEAPON_LIFE
  pickup_delay : ℚ := 3/5
deriving DecidableEq

structure BreakableObject where
  obj_id : Nat
  obj_type : ObjType
  x : ℚ
  y : ℚ
  hp : Int
  max_hp : Int
  alive : Bool := true
deriving DecidableEq

/-! ## Outbound messages

One constructor per server→client message type the modelled code can emit,
with its payload fields in source order.  Purely cosmetic payload entries
that are derived on the fly from other payload fields (`team_color`) are
elided, as is the per-tick `world` snapshot (`build_world_msg`, pure
serialization of the state). -/

inductive SMsg where
  | welcome (player_id : Nat) (num_teams : Nat) (max_hp : Int)
  | lobby_update (players : List (Nat × String × Int × Bool)) (game_started : Bool)
  | game_start (spawn_x spawn_y : ℚ)
  | projectile_hit (proj_id victim_id : Nat) (damage hp : Int) (x y : ℚ)
  | player_killed (victim_id : Nat) (killer_id : Int) (x y : ℚ)
  | object_hit (obj_id : Nat) (hp : Int) (x y : ℚ)
  | object_destroyed (obj_id : Nat) (x y : ℚ) (coins : Int)
  | respawn (player_id : Nat) (x y : ℚ) (hp : Int) (weapon : WeaponId) (coins : Int)
  | powerup_pickup (pu_id : Nat) (pu_type : PUType) (player_id : Nat) (duration : ℚ)
  | powerup_expired (pu_id : Nat)
  | weapon_dropped (drop_id : Nat) (weapon_id : WeaponId) (x y : ℚ)
  | weapon_pickup (drop_id player_id : Nat) (weapon_id : WeaponId)
  | weapon_gone (drop_id : Nat)
  | weapon_bought (weapon_id : WeaponId) (coins : Int)
  | coins_update (coins : Int)
  | buy_failed_too_far
  | buy_failed_insufficient_coins
  | game_over (winner_team : Int) (team_kills : List (Int × Nat))
  | player_left (player_id : Nat)
deriving DecidableEq

/-- An outbound transmission: `broadcast` fans out to every client,
`send` goes to one player id (`send_to`). -/
inductive Out where
  | broadcast (m : SMsg)
  | send (pid : Nat) (m : SMsg)
deriving DecidableEq

/-! ## Server state (GameServer.__init__) -/

/-- The mutable state of `GameServer`.  Python's insertion-ordered dicts
become lists whose entries carry their own key (`player_id`, `proj_id`, …);
`clients`, the lock and the socket are networking internals and are
elided. -/
structure GameServer where
  players : List PlayerState := []
  projectiles : List Projectile := []
  power_ups : List PowerUp := []
  dropped_weapons : List DroppedWeapon := []
  objects : List BreakableObject := []
  next_id : Nat := 0
  next_proj_id : Nat := 0
  next_drop_id : Nat := 0
  game_over : Bool := false
  game_started : Bool := false
  team_kills : List (Int × Nat) := []
deriving DecidableEq

/-! ## Dict helpers -/

/-- Look a player up by id (`self.players.get(pid)`). -/
def findPlayer (s : GameServer) (pid : Nat) : Option PlayerState :=
  s.players.find? (fun p => p.player_id == pid)

/-- Write back an in-place mutation of the player whose id is
`p.player_id` (Python mutates the stored object directly). -/
def setPlayer (ps : List PlayerState) (p : PlayerState) : List PlayerState :=
  ps.map (fun q => if q.player_id = p.player_id then p else q)

/-- `self.players[player_id] = p`: replace in place if the key exists,
else append (dict insertion order). -/
def playerDictSet (ps : List PlayerState) (p : PlayerState) : List PlayerState :=
  if ps.any (fun q => q.player_id == p.player_id) then setPlayer ps p else ps ++ [p]

/-- Write back an in-place mutation of a breakable object. -/
def setObject (os : List BreakableObject) (o : BreakableObject) : List BreakableObject :=
  os.map (fun q => if q.obj_id = o.obj_id then o else q)

/-- `self.team_kills.get(t)` -/
def tkGet (tk : List (Int × Nat)) (t : Int) : Option Nat :=
  (tk.find? (fun e => e.1 == t)).map (fun e => e.2)

/-- `self.team_kills[t] = v`: replace in place or append. -/
def tkSet (tk : List (Int × Nat)) (t : Int) (v : Nat) : List (Int × Nat) :=
  if tk.any (fun e => e.1 == t) then
    tk.map (fun e => if e.1 = t then (t, v) else e)
  else tk ++ [(t, v)]

/-- `self.power_ups[i] = pu`: replace in place or append. -/
def puDictSet (pus : List PowerUp) (pu : PowerUp) : List PowerUp :=
  if pus.any (fun q => q.pu_id == pu.pu_id) then
    pus.map (fun q => if q.pu_id = pu.pu_id then pu else q)
  else pus ++ [pu]

/-- `self.objects[i] = o`: replace in place or append. -/
def objDictSet (os : List BreakableObject) (o : BreakableObject) : List BreakableObject :=
  if os.any (fun q => q.obj_id == o.obj_id) then setObject os o else os ++ [o]

/-! ## Lobby (GameServer._get_lobby_info / _check_all_ready) -/

/-- `_get_lobby_info`: the lobby_update payload. -/
def lobbyInfo (s : GameServer) : SMsg :=
  .lobby_update (s.players.map (fun p => (p.player_id, p.name, p.team_id, p.ready)))
    s.game_started

/-- `_check_all_ready`: at least two players, all of them on a team and
ready. -/
def checkAllReady (s : GameServer) : Bool :=
  if s.players.length < 2 then false
  else s.players.all (fun p => decide (0 ≤ p.team_id) && p.ready)

/-! ## Weapon helpers (GameServer._drop_weapon / spawn_projectile) -/

/-- `_drop_weapon`: drop a non-pistol weapon on death.  Returns the state
with the new drop, the player with the weapon reset to pistol (the caller
writes that player back), and the broadcast.  `next_drop_id` is monotone,
so the fresh key is always absent and the dict assignment is an append. -/
def dropWeapon (s : GameServer) (player : PlayerState) :
    GameServer × PlayerState × List Out :=
  if player.weapon = WeaponId.pistol then (s, player, [])
  else
    let drop : DroppedWeapon :=
      { drop_id := s.next_drop_id, weapon_id := player.weapon,
        x := player.x, y := player.y }
    ({ s with dropped_weapons := s.dropped_weapons ++ [drop],
              next_drop_id := s.next_drop_id + 1 },
     { player with weapon := WeaponId.pistol },
     [Out.broadcast (.weapon_dropped drop.drop_id drop.weapon_id drop.x drop.y)])

/-- `spawn_projectile`.  `now` stands for `time.time()`.  The float
literals `1.5`, `0.5` and `0.33` are exact-rational here (`0.33` is the
decimal 33/100, which the double also represents closely; nothing modelled
depends on the last bits). -/
def spawnProjectile (now : ℚ) (owner_id : Nat) (facing : Facing)
    (s : GameServer) : GameServer :=
  match findPlayer s owner_id with
  | none => s
  | some p =>
    if p.alive = false then s
    else if now < p.reload_until then s
    else
      let weapon := WEAPONS p.weapon
      let speed := weapon.bullet_speed
      let range_px := weapon.range_px
      let lifetime := range_px / (speed * 60) * (3/2) + 1/2
      let rf_mult : ℚ := if now < p.rapid_fire_until then 33/100 else 1
      let p1 := { p with reload_until := now + weapon.reload_time * rf_mult }
      let newProjs := (List.range weapon.pellets).map (fun i =>
        ({ proj_id := s.next_proj_id + i, owner_id := owner_id, team_id := p.team_id,
           x := p.x + (if facing = Facing.right then PLAYER_W else -4),
           y := p.y + PLAYER_H / 2,
           vx := if facing = Facing.right then speed else -speed,
           vy := if 1 < weapon.pellets then
                   (-(((weapon.pellets : ℚ) - 1) / 2) + (i : ℚ)) * weapon.spread
                 else 0,
           lifetime := lifetime, damage := weapon.damage, weapon_id := p.weapon,
           range_px := range_px, dist := 0 } : Projectile))
      { s with players := setPlayer s.players p1,
               projectiles := s.projectiles ++ newProjs,
               next_proj_id := s.next_proj_id + weapon.pellets }

/-! ## Win condition (GameServer.check_win_condition) -/

/-- `check_win_condition`: if the match is running and some team's kill
counter has reached `KILL_LIMIT`, set `game_over` and broadcast `game_over`
for the first such team in dict order.  Note the source has no
`self.game_over` guard. -/
def checkWinCondition (s : GameServer) : GameServer × List Out :=
  if s.game_started = false ∨ KILL_LIMIT ≤ 0 then (s, [])
  else
    match s.team_kills.find? (fun e => decide (KILL_LIMIT ≤ e.2)) with
    | some e => ({ s with game_over := true },
                 [Out.broadcast (.game_over e.1 s.team_kills)])
    | none => (s, [])

/-- The death-processing block shared by projectile kills and environment
kills: set the death flags on the victim, drop their weapon, and write the
mutated record back (`plr.alive = False; plr.hp = 0; plr.respawn_timer =
RESPAWN_DELAY; self._drop_weapon(plr)`).  Returns the new state, the
written-back victim record and the drop broadcast. -/
def killVictim (s : GameServer) (plr : PlayerState) :
    GameServer × PlayerState × List Out :=
  let victim1 := { plr with hp := 0, alive := false, respawn_timer := RESPAWN_DELAY }
  let r := dropWeapon s victim1
  ({ r.1 with players := setPlayer r.1.players r.2.1 }, r.2.1, r.2.2)

/-- The killer-credit block of `tick_projectiles`: coins, kill counter,
team kill counter and the `coins_update` reply, tolerant of a missing
owner. -/
def creditKiller (owner_id : Nat) (s : GameServer) : GameServer × List Out :=
  match findPlayer s owner_id with
  | some killer =>
    let killer1 := { killer with coins := killer.coins + KILL_COIN_REWARD,
                                 kills := killer.kills + 1 }
    ({ s with players := setPlayer s.players killer1,
              team_kills := tkSet s.team_kills killer1.team_id
                ((tkGet s.team_kills killer1.team_id).getD 0 + 1) },
     [Out.send owner_id (.coins_update killer1.coins)])
  | none => (s, [])

/-! ## Respawn and environment kills -/

/-- `_respawn_player`.  `pos` stands for `rand_player_pos()`. -/
def respawnPlayer (now : ℚ) (pos : ℚ × ℚ) (s : GameServer) (player_id : Nat) :
    GameServer × List Out :=
  match findPlayer s player_id with
  | none => (s, [])
  | some p =>
    let p1 := { p with x := pos.1, y := pos.2, vx := 0, vy := 0, alive := true,
                       hp := PLAYER_MAX_HP, respawn_timer := 0,
                       rapid_fire_until := 0,
                       shield_until := now + RESPAWN_SHIELD }
    ({ s with players := setPlayer s.players p1 },
     [Out.broadcast (.respawn player_id p1.x p1.y p1.hp p1.weapon p1.coins)])

/-- `_kill_player_env`: environment kill (no killer credit). -/
def killPlayerEnv (s : GameServer) (player_id : Nat) : GameServer × List Out :=
  match findPlayer s player_id with
  | none => (s, [])
  | some p =>
    if p.alive = false then (s, [])
    else
      let r := killVictim s p
      (r.1, r.2.2 ++ [Out.broadcast (.player_killed player_id (-1) p.x p.y)])

/-- `tick_fall_deaths`: kill alive players whose y has gone below the map. -/
def tickFallDeaths (s : GameServer) : GameServer × List Out :=
  s.players.foldl (fun acc p =>
    if p.alive && decide (450 < p.y) then
      let r := killPlayerEnv acc.1 p.player_id
      (r.1, acc.2 ++ r.2)
    else acc) (s, [])

/-- `tick_respawns`.  `posF` stands for the `rand_player_pos()` draw a
respawning player receives, indexed by player id. -/
def tickRespawns (posF : Nat → ℚ × ℚ) (now dt : ℚ) (s : GameServer) :
    GameServer × List Out :=
  s.players.foldl (fun acc p =>
    if p.alive = false && decide (0 < p.respawn_timer) then
      let t1 := p.respawn_timer - dt
      if t1 ≤ 0 then
        let s1 := { acc.1 with
                    players := setPlayer acc.1.players { p with respawn_timer := 0 } }
        let r := respawnPlayer now (posF p.player_id) s1 p.player_id
        (r.1, acc.2 ++ r.2)
      else
        ({ acc.1 with players := setPlayer acc.1.players { p with respawn_timer := t1 } },
         acc.2)
    else acc) (s, [])

/-! ## Projectile tick (GameServer.tick_projectiles)

The source advances every projectile in sub-steps of at most `_STEP = 2`
pixels, checking in order: range exhaustion, world bounds, player hits,
breakable-object hits.  A projectile is removed when its safety lifetime
elapses, its per-tick displacement is zero, its range or the world bounds
are exceeded, or it hits something; survivors keep their updated fields.
`self.projectiles` is only snapshotted at loop entry and popped at the end,
so the pass is a fold over the projectile list that maps every projectile
to either an updated survivor or removal. -/

/-- The two `continue` guards of the player-hit loop, negated: the player
is not the shooter, not on the shooter's team, alive, and not shielded. -/
def eligibleTarget (now : ℚ) (proj : Projectile) (plr : PlayerState) : Bool :=
  !(plr.player_id == proj.owner_id || plr.team_id == proj.team_id) &&
  (plr.alive && !(decide (now < plr.shield_until)))

/-- 4×4 projectile box vs `PLAYER_W × PLAYER_H` player box overlap. -/
def overlapsPlayer (proj : Projectile) (plr : PlayerState) : Bool :=
  decide (plr.x < proj.x + 4) && decide (proj.x < plr.x + PLAYER_W) &&
  decide (plr.y < proj.y + 4) && decide (proj.y < plr.y + PLAYER_H)

/-- 4×4 projectile box vs the fixed 16×32 breakable-object hitbox. -/
def overlapsObject (proj : Projectile) (obj : BreakableObject) : Bool :=
  decide (obj.x < proj.x + 4) && decide (proj.x < obj.x + 16) &&
  decide (obj.y - 32 < proj.y + 4) && decide (proj.y < obj.y + 4)

/-- One sub-step's position/distance advance. -/
def advanceProj (sx sy sub_len : ℚ) (proj : Projectile) : Projectile :=
  { proj with x := proj.x + sx, y := proj.y + sy, dist := proj.dist + sub_len }

/-- World-bounds safety check (far outside the map). -/
def outOfBounds (proj : Projectile) : Bool :=
  decide (proj.x < -100) || decide (1150 < proj.x) ||
  decide (proj.y < -200) || decide (650 < proj.y)

/-- The body of the player-hit branch: damage, hit broadcast, and — on
lethal damage — death flags, weapon drop, killer credit (coins, kill and
team counters), `player_killed` broadcast and the win check, in source
order.  `pid` is the projectile's dict key. -/
def applyPlayerHit (pid : Nat) (s : GameServer) (proj : Projectile)
    (plr : PlayerState) : GameServer × List Out :=
  let hp1 : Int := plr.hp - proj.damage
  let hitOut : Out :=
    .broadcast (.projectile_hit pid plr.player_id proj.damage (max 0 hp1) proj.x proj.y)
  if hp1 ≤ 0 then
    let rV := killVictim s plr
    let rK := creditKiller proj.owner_id rV.1
    let killedOut : Out :=
      .broadcast (.player_killed plr.player_id (proj.owner_id : Int) plr.x plr.y)
    let rWin := checkWinCondition rK.1
    (rWin.1, hitOut :: (rV.2.2 ++ rK.2 ++ [killedOut] ++ rWin.2))
  else
    ({ s with players := setPlayer s.players { plr with hp := hp1 } }, [hitOut])

/-- The body of the breakable-object branch.  `coinDraw` stands for the
`random.randint(lo, hi)` coin reward, indexed by object id. -/
def applyObjectHit (coinDraw : Nat → Int) (s : GameServer) (proj : Projectile)
    (obj : BreakableObject) : GameServer × List Out :=
  let hp1 : Int := obj.hp - BREAKABLE_PROJECTILE_DAMAGE
  let hitOut : Out := .broadcast (.object_hit obj.obj_id (max 0 hp1) proj.x proj.y)
  if hp1 ≤ 0 then
    let obj2 := { obj with hp := hp1, alive := false }
    let s1 := { s with objects := setObject s.objects obj2 }
    let coins := coinDraw obj.obj_id
    let destroyedOut : Out := .broadcast (.object_destroyed obj.obj_id obj.x obj.y coins)
    match findPlayer s1 proj.owner_id with
    | some shooter =>
      let shooter1 := { shooter with coins := shooter.coins + coins }
      ({ s1 with players := setPlayer s1.players shooter1 },
       [hitOut, destroyedOut, Out.send proj.owner_id (.coins_update shooter1.coins)])
    | none => (s1, [hitOut, destroyedOut])
  else
    ({ s with objects := setObject s.objects { obj with hp := hp1 } }, [hitOut])

/-- How a sub-step (or the whole sub-step loop) ended. -/
inductive SubExit where
  | flying
  | hitSomething
  | expired
deriving DecidableEq

/-- Result of a sub-step / the sub-step loop / one projectile's tick. -/
structure StepRes where
  srv : GameServer
  proj : Projectile
  out : List Out
  exit : SubExit
deriving DecidableEq

/-- One sub-step: advance, then — in source order — range check, bounds
check, first eligible colliding player, first alive colliding object. -/
def subStep (now : ℚ) (coinDraw : Nat → Int) (pid : Nat) (sx sy sub_len : ℚ)
    (s : GameServer) (proj0 : Projectile) : StepRes :=
  let proj := advanceProj sx sy sub_len proj0
  if proj.range_px ≤ proj.dist then ⟨s, proj, [], .expired⟩
  else if outOfBounds proj then ⟨s, proj, [], .expired⟩
  else
    match s.players.find? (fun plr => eligibleTarget now proj plr && overlapsPlayer proj plr) with
    | some plr =>
      let r := applyPlayerHit pid s proj plr
      ⟨r.1, proj, r.2, .hitSomething⟩
    | none =>
      match s.objects.find? (fun obj => obj.alive && overlapsObject proj obj) with
      | some obj =>
        let r := applyObjectHit coinDraw s proj obj
        ⟨r.1, proj, r.2, .hitSomething⟩
      | none => ⟨s, proj, [], .flying⟩

/-- `for _ in range(n_steps)`, stopping at the first non-flying exit. -/
def subLoop (now : ℚ) (coinDraw : Nat → Int) (pid : Nat) (sx sy sub_len : ℚ) :
    Nat → GameServer → Projectile → StepRes
  | 0, s, proj => ⟨s, proj, [], .flying⟩
  | n + 1, s, proj =>
    let r := subStep now coinDraw pid sx sy sub_len s proj
    match r.exit with
    | .flying =>
      let r2 := subLoop now coinDraw pid sx sy sub_len n r.srv r.proj
      ⟨r2.srv, r2.proj, r.out ++ r2.out, r2.exit⟩
    | e => ⟨r.srv, r.proj, r.out, e⟩

/-- `n_steps = max(1, int(math.ceil(tick_dist / _STEP)))` with `_STEP = 2`. -/
def nSteps (tick_dist : ℚ) : Nat :=
  max 1 (Int.ceil (tick_dist / 2)).toNat

/-- One projectile's whole tick: safety-lifetime countdown, displacement,
sub-step count (`max 1 ⌈tick_dist / 2⌉`), then the sub-step loop.  Returns
`none` in place of a removed projectile.  `hyp` stands for `math.hypot`. -/
def stepProjectile (hyp : ℚ → ℚ → ℚ) (coinDraw : Nat → Int) (now dt : ℚ)
    (s : GameServer) (proj0 : Projectile) : GameServer × Option Projectile × List Out :=
  let proj := { proj0 with lifetime := proj0.lifetime - dt }
  if proj.lifetime ≤ 0 then (s, none, [])
  else
    let mx := proj.vx * dt * 60
    let my := proj.vy * dt * 60
    let tick_dist := hyp mx my
    if tick_dist = 0 then (s, none, [])
    else
      let n_steps : Nat := nSteps tick_dist
      let r := subLoop now coinDraw proj.proj_id (mx / (n_steps : ℚ))
        (my / (n_steps : ℚ)) (tick_dist / (n_steps : ℚ)) n_steps s proj
      match r.exit with
      | .flying => (r.srv, some r.proj, r.out)
      | _ => (r.srv, none, r.out)

/-- `tick_projectiles`: fold the per-projectile step over the snapshot of
the projectile dict, then install the surviving projectiles. -/
def tickProjectiles (hyp : ℚ → ℚ → ℚ) (coinDraw : Nat → Int) (now dt : ℚ)
    (s : GameServer) : GameServer × List Out :=
  let r := s.projectiles.foldl (fun acc proj =>
    let r1 := stepProjectile hyp coinDraw now dt acc.1 proj
    (r1.1, acc.2.1 ++ r1.2.1.toList, acc.2.2 ++ r1.2.2))
    (s, ([] : List Projectile), ([] : List Out))
  ({ r.1 with projectiles := r.2.1 }, r.2.2)

/-! ## Dropped weapons and power-ups -/

/-- `tick_dropped_weapons`: count lifetimes and pickup delays down, drop
(and announce) the expired ones. -/
def tickDroppedWeapons (dt : ℚ) (s : GameServer) : GameServer × List Out :=
  let stepped := s.dropped_weapons.map (fun d =>
    { d with lifetime := d.lifetime - dt, pickup_delay := d.pickup_delay - dt })
  ({ s with dropped_weapons := stepped.filter (fun d => decide (0 < d.lifetime)) },
   (stepped.filter (fun d => decide (d.lifetime ≤ 0))).map
     (fun d => Out.broadcast (.weapon_gone d.drop_id)))

/-- The power-up pickup overlap test (player box vs 10×10 power-up box). -/
def overlapsPowerUp (plr : PlayerState) (pu : PowerUp) : Bool :=
  decide (plr.x < pu.spawn_x + 10) && decide (pu.spawn_x < plr.x + PLAYER_W) &&
  decide (plr.y < pu.spawn_y + 10) && decide (pu.spawn_y < plr.y + PLAYER_H)

/-- One iteration of the `tick_power_ups` loop for a single power-up.
`newPosF` stands for `rand_powerup_pos()`, `newLifeF` for
`random.uniform(POWER_UP_LIFETIME * 0.4, POWER_UP_LIFETIME)` and
`newRespawnF` for `random.uniform(POWER_UP_RESPAWN_TIME * 0.6,
POWER_UP_RESPAWN_TIME * 1.4)`, all indexed by power-up id (each branch
consumes at most one draw of each kind per tick). -/
def tickOnePowerUp (newPosF : Nat → ℚ × ℚ) (newLifeF newRespawnF : Nat → ℚ)
    (now dt : ℚ) (players : List PlayerState) (pu : PowerUp) :
    PowerUp × List PlayerState × List Out :=
  if pu.active = false then
    let rt := pu.respawn_timer - dt
    if rt ≤ 0 then
      let pos := newPosF pu.pu_id
      ({ pu with spawn_x := pos.1, spawn_y := pos.2, active := true,
                 lifetime_timer := newLifeF pu.pu_id,
                 pu_type := POWER_UP_TYPES.getD
                   ((puTypeIdx pu.pu_type + 1) % POWER_UP_TYPES.length) pu.pu_type,
                 respawn_timer := rt },
       players, [])
    else ({ pu with respawn_timer := rt }, players, [])
  else
    let lt := pu.lifetime_timer - dt
    if lt ≤ 0 then
      ({ pu with lifetime_timer := lt, active := false,
                 respawn_timer := newRespawnF pu.pu_id },
       players, [Out.broadcast (.powerup_expired pu.pu_id)])
    else
      match players.find? (fun plr => plr.alive && overlapsPowerUp plr pu) with
      | some plr =>
        let duration := POWER_UP_DURATIONS pu.pu_type
        let plr1 :=
          if pu.pu_type = PUType.shield then { plr with shield_until := now + duration }
          else if pu.pu_type = PUType.rapid_fire then
            { plr with rapid_fire_until := now + duration }
          else plr
        ({ pu with lifetime_timer := lt, active := false,
                   respawn_timer := newRespawnF pu.pu_id },
         setPlayer players plr1,
         [Out.broadcast (.powerup_pickup pu.pu_id pu.pu_type plr.player_id duration)])
      | none => ({ pu with lifetime_timer := lt }, players, [])

/-- `tick_power_ups`: the per-power-up step folded over the snapshot of the
power-up dict (membership never changes during the pass). -/
def tickPowerUps (newPosF : Nat → ℚ × ℚ) (newLifeF newRespawnF : Nat → ℚ)
    (now dt : ℚ) (s : GameServer) : GameServer × List Out :=
  let r := s.power_ups.foldl (fun acc pu =>
    let r1 := tickOnePowerUp newPosF newLifeF newRespawnF now dt acc.2.1 pu
    (acc.1 ++ [r1.1], r1.2.1, acc.2.2 ++ r1.2.2))
    (([] : List PowerUp), s.players, ([] : List Out))
  ({ s with power_ups := r.1, players := r.2.1 }, r.2.2)

/-! ## Match start (GameServer.start_game) -/

/-- The random draws `start_game` consumes: the shuffled copy of
`POWER_UP_TYPES`, the `rand_powerup_pos()` positions and the
`random.uniform(0, 3.0)` lifetime jitters, the latter two indexed by
power-up id. -/
structure StartRand where
  shuffled : List PUType
  puPos : Nat → ℚ × ℚ
  jitter : Nat → ℚ

/-- `start_game`.  The set comprehension over team ids is modelled as the
first-occurrence dedup of the players' team ids (a `set`'s iteration order
is unspecified in Python; no modelled claim depends on it).  Each player is
written to the spawn slot `members.index(p) % len(spawns)`; `p` occurs at
its own index because player ids are unique, so the index is computed on
the pre-mutation player list.  Power-up `i` starts active with lifetime
`POWER_UP_LIFETIME * (i / NUM_POWER_UPS) + jitter i`.  The `game_start`
payload beyond the spawn position (shop coordinates, weapon table, kill
limit, object table — all constants or already part of the state) is
elided. -/
def startGame (now : ℚ) (rnd : StartRand) (s : GameServer) : GameServer × List Out :=
  let s1 := { s with game_started := true }
  let teams := ((s1.players.filter (fun p => decide (0 ≤ p.team_id))).map
    (fun p => p.team_id)).dedup
  let s2 := { s1 with team_kills := teams.map (fun t => (t, 0)) }
  let players1 := s2.players.map (fun p =>
    let spawns := (TEAM_SPAWN_AREAS p.team_id).getD [((100 : ℚ), (100 : ℚ))]
    let members := s2.players.filter (fun q => q.team_id == p.team_id)
    let idx := (members.findIdx (fun q => q == p)) % spawns.length
    let sp := spawns.getD idx ((100 : ℚ), (100 : ℚ))
    { p with x := sp.1, y := sp.2, hp := PLAYER_MAX_HP, alive := true,
             shield_until := now + RESPAWN_SHIELD, weapon := WeaponId.pistol,
             coins := STARTING_COINS, reload_until := 0, kills := 0 })
  let s3 := { s2 with players := players1 }
  let pus := (List.range NUM_POWER_UPS).foldl (fun acc i =>
    puDictSet acc
      { pu_id := i,
        pu_type := rnd.shuffled.getD (i % rnd.shuffled.length) PUType.speed,
        spawn_x := (rnd.puPos i).1, spawn_y := (rnd.puPos i).2,
        lifetime_timer := POWER_UP_LIFETIME * ((i : ℚ) / (NUM_POWER_UPS : ℚ)) +
          rnd.jitter i }) s3.power_ups
  let objs := BREAKABLE_DEFS.enum.foldl (fun acc e =>
    objDictSet acc
      { obj_id := e.1, obj_type := e.2.1, x := e.2.2.1, y := e.2.2.2,
        hp := BREAKABLE_HP e.2.1, max_hp := BREAKABLE_HP e.2.1 }) s3.objects
  let s4 := { s3 with power_ups := pus, objects := objs }
  (s4, s4.players.map (fun p => Out.send p.player_id (SMsg.game_start p.x p.y)))

/-! ## Message dispatch (GameServer.process_message) -/

/-- Inbound client messages, decoded.  `pick_weapon`'s `drop_id` and
`buy_weapon`'s `weapon_id` are `Option`s: `none` models a missing field or
a value that is not a key of the respective dict (`dropped_weapons.get`
returns `None`, `weapon_id not in WEAPONS` is rejected). -/
inductive CMsg where
  | join (name : String)
  | select_team (team_id : Int)
  | ready (ready : Bool)
  | state (x y vx vy : ℚ) (on_ground : Bool) (facing : Facing)
  | fell_off
  | pick_weapon (drop_id : Option Nat)
  | throw (facing : Facing)
  | buy_weapon (weapon_id : Option WeaponId)
deriving DecidableEq

/-- `process_message`.  `now` stands for `time.time()`; `rnd` carries the
random draws a triggered `start_game` would consume. -/
def processMessage (now : ℚ) (rnd : StartRand) (player_id : Nat) (msg : CMsg)
    (s : GameServer) : GameServer × List Out :=
  match msg with
  | .join name =>
    let p : PlayerState := { player_id := player_id, name := name }
    let s1 := { s with players := playerDictSet s.players p }
    (s1, [Out.send player_id (.welcome player_id NUM_TEAMS PLAYER_MAX_HP),
          Out.broadcast (lobbyInfo s1)])
  | .select_team tid =>
    match findPlayer s player_id with
    | some p =>
      if s.game_started = false then
        let s1 := if 0 ≤ tid ∧ tid < (NUM_TEAMS : Int) then
            { s with players := setPlayer s.players { p with team_id := tid, ready := false } }
          else s
        (s1, [Out.broadcast (lobbyInfo s1)])
      else (s, [])
    | none => (s, [])
  | .ready rdy =>
    match findPlayer s player_id with
    | some p =>
      if s.game_started = false ∧ 0 ≤ p.team_id then
        let s1 := { s with players := setPlayer s.players { p with ready := rdy } }
        if checkAllReady s1 then
          let r := startGame now rnd s1
          (r.1, Out.broadcast (lobbyInfo s1) :: r.2)
        else (s1, [Out.broadcast (lobbyInfo s1)])
      else (s, [])
    | none => (s, [])
  | .state x y vx vy og f =>
    if s.game_started = false then (s, [])
    else
      match findPlayer s player_id with
      | some p =>
        if p.alive then
          ({ s with players := setPlayer s.players
                      ({ p with x := x, y := y, vx := vx, vy := vy,
                                on_ground := og, facing := f }) },
           [])
        else (s, [])
      | none => (s, [])
  | .fell_off =>
    if s.game_started then killPlayerEnv s player_id else (s, [])
  | .pick_weapon drop_id =>
    if s.game_started = false then (s, [])
    else
      match findPlayer s player_id with
      | none => (s, [])
      | some p =>
        if p.alive = false then (s, [])
        else
          match drop_id.bind (fun d => s.dropped_weapons.find? (fun w => w.drop_id == d)) with
          | none => (s, [])
          | some drop =>
            if 0 < drop.pickup_delay then (s, [])
            else
              let dx := (p.x + PLAYER_W / 2) - (drop.x + PLAYER_W / 2)
              let dy := (p.y + PLAYER_H / 2) - drop.y
              if 50 * 50 < dx * dx + dy * dy then (s, [])
              else
                ({ s with
                   dropped_weapons :=
                     s.dropped_weapons.filter (fun w => !(w.drop_id == drop.drop_id)),
                   players := setPlayer s.players { p with weapon := drop.weapon_id } },
                 [Out.broadcast (.weapon_pickup drop.drop_id player_id drop.weapon_id)])
  | .throw f =>
    if s.game_started then
      match findPlayer s player_id with
      | some p => if p.alive then (spawnProjectile now player_id f s, []) else (s, [])
      | none => (s, [])
    else (s, [])
  | .buy_weapon weapon_id =>
    if s.game_started = false then (s, [])
    else
      match findPlayer s player_id with
      | none => (s, [])
      | some p =>
        if p.alive = false then (s, [])
        else
          match weapon_id with
          | none => (s, [])
          | some w =>
            let weapon := WEAPONS w
            let dx := p.x - SHOP_X
            let dy := p.y - (SHOP_Y - PLAYER_H)
            if SHOP_RADIUS ^ 2 < dx * dx + dy * dy then
              (s, [Out.send player_id (.buy_failed_too_far)])
            else if p.coins < weapon.price then
              (s, [Out.send player_id (.buy_failed_insufficient_coins)])
            else
              ({ s with players := setPlayer s.players
                          ({ p with coins := p.coins - weapon.price, weapon := w }) },
               [Out.send player_id (.weapon_bought w (p.coins - weapon.price))])

/-! ## Observables used by the theorems -/

/-- Number of `player_killed` broadcasts naming `pid` as the victim. -/
def killedCount (pid : Nat) (outs : List Out) : Nat :=
  outs.countP (fun o => match o with
    | Out.broadcast (SMsg.player_killed v _ _ _) => v == pid
    | _ => false)

/-- Number of `game_over` broadcasts. -/
def gameOverCount (outs : List Out) : Nat :=
  outs.countP (fun o => match o with
    | Out.broadcast (SMsg.game_over _ _) => true
    | _ => false)

/-- The power-up state-exclusivity invariant: exactly one of
{active with the lifetime timer running, inactive with the respawn timer
running} holds. -/
def puExclusive (pu : PowerUp) : Prop :=
  ((pu.active = true ∧ 0 < pu.lifetime_timer) ∧
    ¬(pu.active = false ∧ 0 < pu.respawn_timer)) ∨
  ((pu.active = false ∧ 0 < pu.respawn_timer) ∧
    ¬(pu.active = true ∧ 0 < pu.lifetime_timer))

instance (pu : PowerUp) : Decidable (puExclusive pu) := by
  unfold puExclusive; infer_instance

/-- How a single player's record can evolve across (part of) a
`tick_projectiles` pass whose emitted messages are `o`: the id and
`shield_until` are untouched, `alive` only ever flips to false, hp is
non-increasing and stays positive while alive (under `hd`, which stands
for "every involved projectile has non-negative damage", and the incoming
player invariant `alive → 0 < hp`), the pass broadcasts `player_killed`
for this player exactly when it flips them to dead, and a player who was
dead or shielded at time `now` keeps hp and alive unchanged. -/
def tickEvol (hd : Prop) (now : ℚ) (o : List Out) (p q : PlayerState) : Prop :=
  q.player_id = p.player_id ∧
  q.shield_until = p.shield_until ∧
  (q.alive = true → p.alive = true) ∧
  (hd → (p.alive = true → 0 < p.hp) → q.hp ≤ p.hp ∧ (q.alive = true → 0 < q.hp)) ∧
  killedCount p.player_id o = (if p.alive = true ∧ q.alive = false then 1 else 0) ∧
  ((p.alive = false ∨ now < p.shield_until) → q.hp = p.hp ∧ q.alive = p.alive)

/-! ## Concrete scenario states

Explicit inputs used to instantiate the theorems below (witnesses and
counterexamples). -/

/-- A zero coin draw (the breakable-object reward; unused in the concrete
scenarios, which contain no objects). -/
def cd0 : Nat → Int := fun _ => 0

/-- `math.hypot` restricted to the horizontal motions of the concrete
scenarios, where it is exact: `hypot mx 0 = mx` for `mx ≥ 0`. -/
def hypX : ℚ → ℚ → ℚ := fun x _ => x

/-- Fixed random draws for `start_game`: unshuffled type list, all
power-ups at the origin, lifetime jitter 0 (a possible `uniform(0, 3.0)`
outcome). -/
def rnd0 : StartRand := ⟨POWER_UP_TYPES, fun _ => (0, 0), fun _ => 0⟩

/-- Like `rnd0` but with lifetime jitter 1. -/
def rnd1 : StartRand := ⟨POWER_UP_TYPES, fun _ => (0, 0), fun _ => 1⟩

/-- C4 scenario: a stationary, alive, unshielded enemy at (100, 100). -/
def victim4 : PlayerState :=
  { player_id := 1, name := "v", team_id := 1, x := 100, y := 100 }

/-- C4 scenario: a sniper-speed projectile 40 px left of the victim whose
displacement this tick is 50 px (`vx * dt * 60 = 50` at `dt = 1/20`). -/
def proj4 : Projectile :=
  { proj_id := 0, owner_id := 0, team_id := 0, x := 60, y := 106,
    vx := 50/3, vy := 0, lifetime := 3, damage := 70,
    weapon_id := .sniper, range_px := 800, dist := 0 }

/-- C4 scenario state. -/
def s4 : GameServer :=
  { players := [victim4], projectiles := [proj4],
    game_started := true, team_kills := [(0, 0), (1, 0)] }

/-- C7 scenario: the same projectile flying through a player whose shield
is active until `t = 5`. -/
def victim7 : PlayerState :=
  { player_id := 1, name := "v", team_id := 1, x := 100, y := 100,
    shield_until := 5 }

/-- C7 scenario state. -/
def s7 : GameServer :=
  { players := [victim7], projectiles := [proj4],
    game_started := true, team_kills := [(0, 0), (1, 0)] }

/-- C3 scenario: a pistol bullet far from anything, surviving its tick. -/
def projFly : Projectile :=
  { proj_id := 0, owner_id := 0, team_id := 0, x := 100, y := 100,
    vx := 2, vy := 0, lifetime := 3, damage := 20,
    weapon_id := .pistol, range_px := 240, dist := 0 }

/-- C3 scenario state. -/
def sFly : GameServer :=
  { players := [], projectiles := [projFly], game_started := true }

/-- The C3 bullet after one tick at `dt = 1/20`: advanced 6 px, range
budget charged, lifetime counted down. -/
def projFlyEnd : Projectile :=
  { projFly with x := 106, dist := 6, lifetime := 3 - 1/20 }

/-- A buyer with 100 coins at a given position (C2 scenarios). -/
def mkBuyer (x y : ℚ) : PlayerState :=
  { player_id := 0, name := "b", team_id := 0, x := x, y := y, coins := 100 }

/-- A running match containing only that buyer (C2 scenarios). -/
def mkShopState (x y : ℚ) : GameServer :=
  { players := [mkBuyer x y], game_started := true }

/-- C1 scenario: match started, `game_over` already true, team 0 at the
kill limit. -/
def sOver : GameServer :=
  { game_started := true, game_over := true, team_kills := [(0, 15)] }

/-- C9 scenario: highest counter is 14. -/
def sW14 : GameServer :=
  { game_started := true, team_kills := [(0, 14), (1, 3)] }

/-- C9 scenario: team 1 exactly at the kill limit. -/
def sW15 : GameServer :=
  { game_started := true, team_kills := [(1, 15)] }

/-- C8 scenario: a not-yet-ready player on team 0. -/
def pR0 : PlayerState := { player_id := 0, name := "a", team_id := 0 }

/-- C8 scenario: an already-ready player on team 1. -/
def pR1 : PlayerState := { player_id := 1, name := "b", team_id := 1, ready := true }

/-- C8 scenario: a two-player lobby. -/
def sReady : GameServer := { players := [pR0, pR1] }

/-- C8 scenario: a one-player lobby. -/
def sSolo : GameServer := { players := [pR0] }

/-- C6 scenario: a two-player lobby about to start. -/
def sLobby2 : GameServer := { players := [pR0, pR1] }

/-- C6 scenario: one live power-up mid-match. -/
def puLive : PowerUp :=
  { pu_id := 0, pu_type := .speed, spawn_x := 0, spawn_y := 0,
    active := true, respawn_timer := 0, lifetime_timer := 4 }

/-- C6 scenario state. -/
def sPU : GameServer := { power_ups := [puLive], game_started := true }

/-- C10 scenario: a collectible dropped auto rifle (delay elapsed). -/
def drop10 : DroppedWeapon :=
  { drop_id := 5, weapon_id := .auto, x := 100, y := 108,
    lifetime := 10, pickup_delay := -1 }

/-- C10 scenario: a sniper-carrying player standing on the drop. -/
def pPick : PlayerState :=
  { player_id := 2, name := "c", team_id := 0, x := 100, y := 100,
    weapon := .sniper }

/-- C10 scenario state. -/
def sPick : GameServer :=
  { players := [pPick], dropped_weapons := [drop10], game_started := true }

/-! ## C1 — win check after `game_over` -/

/-- C1 counterexample: in a started match whose `game_over` flag is
already true and whose team 0 already holds `KILL_LIMIT` kills, calling
`check_win_condition` again broadcasts a second `game_over` message —
the source has no `if self.game_over: return` guard, so the claimed
idempotence fails. -/
theorem claim_C1_cex :
    sOver.game_over = true ∧ sOver.game_started = true ∧
    gameOverCount (checkWinCondition sOver).2 = 1 := by
  refine ⟨rfl, rfl, ?_⟩
  decide

/-- C1 (amended): when `game_over` is already true, a further call of
`check_win_condition` in a started match with a team at or above
`KILL_LIMIT` leaves the server state unchanged (the `game_over := true`
write is the identity) but broadcasts one more `game_over` message; it is
a no-op only when no team has reached the limit. -/
theorem claim_C1 (s : GameServer)
    (hstart : s.game_started = true)
    (hover : s.game_over = true)
    (hteam : ∃ e ∈ s.team_kills, KILL_LIMIT ≤ e.2) :
    (checkWinCondition s).1 = s ∧ gameOverCount (checkWinCondition s).2 = 1 := by
  obtain ⟨e, he, hk⟩ := hteam
  have hguard : ¬ (s.game_started = false ∨ KILL_LIMIT ≤ 0) := by
    simp [hstart, KILL_LIMIT]
  have hfind : (s.team_kills.find? (fun e => decide (KILL_LIMIT ≤ e.2))).isSome := by
    rw [List.find?_isSome]
    exact ⟨e, he, by simpa using hk⟩
  rcases hsome : s.team_kills.find? (fun e => decide (KILL_LIMIT ≤ e.2)) with _ | e2
  · rw [hsome] at hfind
    simp at hfind
  · constructor
    · simp only [checkWinCondition, if_neg hguard, hsome]
      cases s
      simp_all
    · simp only [checkWinCondition, if_neg hguard, hsome, gameOverCount]
      rfl

/-- C1 witness: the amended theorem instantiated at `sOver`. -/
theorem claim_C1_witness :
    (checkWinCondition sOver).1 = sOver ∧
    gameOverCount (checkWinCondition sOver).2 = 1 :=
  claim_C1 sOver rfl rfl ⟨(0, 15), by decide⟩

/-! ## C9 — kill-limit win threshold -/

/-- C9: in a started match, `check_win_condition` broadcasts `game_over`
naming a team whose counter has reached `KILL_LIMIT` whenever some team
has, and is a strict no-op when every counter is at most 14. -/
theorem claim_C9 (s : GameServer) (hstart : s.game_started = true) :
    ((∃ e ∈ s.team_kills, KILL_LIMIT ≤ e.2) →
      ∃ t k, (t, k) ∈ s.team_kills ∧ KILL_LIMIT ≤ k ∧
        (checkWinCondition s).1.game_over = true ∧
        (checkWinCondition s).2 = [Out.broadcast (.game_over t s.team_kills)]) ∧
    ((∀ e ∈ s.team_kills, e.2 ≤ 14) → checkWinCondition s = (s, [])) := by
  have hguard : ¬ (s.game_started = false ∨ KILL_LIMIT ≤ 0) := by
    simp [hstart, KILL_LIMIT]
  constructor
  · rintro ⟨e, he, hk⟩
    have hfind : (s.team_kills.find? (fun e => decide (KILL_LIMIT ≤ e.2))).isSome := by
      rw [List.find?_isSome]
      exact ⟨e, he, by simpa using hk⟩
    rcases hsome : s.team_kills.find? (fun e => decide (KILL_LIMIT ≤ e.2)) with _ | e2
    · rw [hsome] at hfind
      simp at hfind
    · have hmem : e2 ∈ s.team_kills := List.mem_of_find?_eq_some hsome
      have hpred : KILL_LIMIT ≤ e2.2 := by
        have := List.find?_some hsome
        simpa using this
      refine ⟨e2.1, e2.2, by simpa using hmem, hpred, ?_, ?_⟩
      · simp only [checkWinCondition, if_neg hguard, hsome]
      · simp only [checkWinCondition, if_neg hguard, hsome]
  · intro hall
    have hnone : s.team_kills.find? (fun e => decide (KILL_LIMIT ≤ e.2)) = none := by
      rw [List.find?_eq_none]
      intro e he
      have h14 := hall e he
      simp only [decide_eq_true_eq, KILL_LIMIT]
      omega
    simp only [checkWinCondition, if_neg hguard, hnone]

/-- C9 witness: a 14-kill board is a no-op, a 15-kill board ends the
game. -/
theorem claim_C9_witness :
    checkWinCondition sW14 = (sW14, []) ∧
    (checkWinCondition sW15).1.game_over = true := by
  constructor
  · exact (claim_C9 sW14 rfl).2 (by decide)
  · obtain ⟨t, k, -, -, hover, -⟩ := (claim_C9 sW15 rfl).1 ⟨(1, 15), by decide⟩
    exact hover

/-! ## C2 — buy-weapon distance boundary -/

/-- C2 counterexample: an alive player with 100 coins at the claimed
boundary position (524, 256) sends `buy_weapon` for a valid weapon in a
running match and receives `buy_failed{too_far}` — the source measures the
squared distance from `(SHOP_X, SHOP_Y - PLAYER_H) = (464, 240)` to the
player's top-left corner, so this position is at squared distance
60² + 16² = 3856 > 60², not at the boundary. -/
theorem claim_C2_cex :
    (mkShopState 524 256).game_started = true ∧
    ((mkShopState 524 256).players.map (fun p => p.coins)) = [100] ∧
    processMessage 0 rnd1 0 (.buy_weapon (some .sniper)) (mkShopState 524 256) =
      (mkShopState 524 256, [Out.send 0 .buy_failed_too_far]) := by
  refine ⟨rfl, rfl, ?_⟩
  decide

/-- C2 (amended): the boundary behaviour holds with the shop reference
point the code actually uses, `(SHOP_X, SHOP_Y - PLAYER_H)` against the
player's top-left corner: squared distance within `SHOP_RADIUS²` and
enough coins buys the weapon, squared distance beyond `SHOP_RADIUS²` is
rejected with `buy_failed{too_far}` (so (524, 240) is accepted and
(525, 240) rejected, rather than the claimed (524, 256) / (525, 256)). -/
theorem claim_C2 (now : ℚ) (rnd : StartRand) (pid : Nat) (s : GameServer)
    (p : PlayerState) (w : WeaponId)
    (hstart : s.game_started = true)
    (hfind : findPlayer s pid = some p)
    (halive : p.alive = true) :
    (SHOP_RADIUS ^ 2 <
        (p.x - SHOP_X) * (p.x - SHOP_X) +
        (p.y - (SHOP_Y - PLAYER_H)) * (p.y - (SHOP_Y - PLAYER_H)) →
      processMessage now rnd pid (.buy_weapon (some w)) s =
        (s, [Out.send pid .buy_failed_too_far])) ∧
    ((p.x - SHOP_X) * (p.x - SHOP_X) +
        (p.y - (SHOP_Y - PLAYER_H)) * (p.y - (SHOP_Y - PLAYER_H)) ≤
          SHOP_RADIUS ^ 2 →
      (WEAPONS w).price ≤ p.coins →
      processMessage now rnd pid (.buy_weapon (some w)) s =
        ({ s with players := setPlayer s.players
                    ({ p with coins := p.coins - (WEAPONS w).price, weapon := w }) },
         [Out.send pid (.weapon_bought w (p.coins - (WEAPONS w).price))])) := by
  constructor
  · intro hfar
    simp [processMessage, hstart, hfind, halive, hfar]
  · intro hnear hcoins
    simp [processMessage, hstart, hfind, halive, not_lt.mpr hnear, not_lt.mpr hcoins]

/-- C2 witness: the amended boundary at the corrected positions —
(524, 240) buys the sniper for 80 coins, (525, 240) is too far. -/
theorem claim_C2_witness :
    processMessage 0 rnd1 0 (.buy_weapon (some .sniper)) (mkShopState 524 240) =
      ({ mkShopState 524 240 with
          players := setPlayer (mkShopState 524 240).players
            ({ mkBuyer 524 240 with coins := (mkBuyer 524 240).coins - (WEAPONS .sniper).price,
                                    weapon := .sniper }) },
       [Out.send 0 (.weapon_bought .sniper ((mkBuyer 524 240).coins - (WEAPONS .sniper).price))]) ∧
    processMessage 0 rnd1 0 (.buy_weapon (some .sniper)) (mkShopState 525 240) =
      (mkShopState 525 240, [Out.send 0 .buy_failed_too_far]) := by
  constructor
  · exact (claim_C2 0 rnd1 0 (mkShopState 524 240) (mkBuyer 524 240) .sniper rfl rfl rfl).2
      (by decide) (by decide)
  · exact (claim_C2 0 rnd1 0 (mkShopState 525 240) (mkBuyer 525 240) .sniper rfl rfl rfl).1
      (by decide)

/-! ## Projectile-tick lemmas (C3, C4, C5, C7) -/

/-- Every branch of a sub-step returns the advanced projectile. -/
theorem subStep_proj (now : ℚ) (cd : Nat → Int) (pid : Nat) (sx sy sub_len : ℚ)
    (s : GameServer) (pr : Projectile) :
    (subStep now cd pid sx sy sub_len s pr).proj = advanceProj sx sy sub_len pr := by
  unfold subStep
  dsimp only []
  repeat' split
  all_goals rfl

/-- The range check fires first: once the advanced distance meets the
range budget the sub-step removes the projectile with the server state
untouched and nothing broadcast — an expired bullet deals no damage. -/
theorem subStep_expired_of_range (now : ℚ) (cd : Nat → Int) (pid : Nat)
    (sx sy sub_len : ℚ) (s : GameServer) (pr : Projectile)
    (h : (advanceProj sx sy sub_len pr).range_px ≤ (advanceProj sx sy sub_len pr).dist) :
    subStep now cd pid sx sy sub_len s pr =
      ⟨s, advanceProj sx sy sub_len pr, [], .expired⟩ := by
  unfold subStep
  rw [if_pos h]

/-- A sub-step that leaves the projectile flying has checked that its
distance is still strictly below its range budget. -/
theorem subStep_flying_dist (now : ℚ) (cd : Nat → Int) (pid : Nat)
    (sx sy sub_len : ℚ) (s : GameServer) (pr : Projectile)
    (h : (subStep now cd pid sx sy sub_len s pr).exit = SubExit.flying) :
    (subStep now cd pid sx sy sub_len s pr).proj.dist <
      (subStep now cd pid sx sy sub_len s pr).proj.range_px := by
  rw [subStep_proj]
  by_cases hr : (advanceProj sx sy sub_len pr).range_px ≤ (advanceProj sx sy sub_len pr).dist
  · rw [subStep_expired_of_range now cd pid sx sy sub_len s pr hr] at h
    cases h
  · exact lt_of_not_le hr

/-- Unfolding equation for a positive-fuel sub-step loop. -/
theorem subLoop_succ (now : ℚ) (cd : Nat → Int) (pid : Nat)
    (sx sy sub_len : ℚ) (n : Nat) (s : GameServer) (pr : Projectile) :
    subLoop now cd pid sx sy sub_len (n + 1) s pr =
      (match (subStep now cd pid sx sy sub_len s pr).exit with
       | SubExit.flying =>
         let r := subStep now cd pid sx sy sub_len s pr
         let r2 := subLoop now cd pid sx sy sub_len n r.srv r.proj
         ⟨r2.srv, r2.proj, r.out ++ r2.out, r2.exit⟩
       | e =>
         ⟨(subStep now cd pid sx sy sub_len s pr).srv,
          (subStep now cd pid sx sy sub_len s pr).proj,
          (subStep now cd pid sx sy sub_len s pr).out, e⟩) := rfl

/-- The sub-step loop never touches a projectile's damage, range budget
or lifetime. -/
theorem subLoop_proj_fields (now : ℚ) (cd : Nat → Int) (pid : Nat)
    (sx sy sub_len : ℚ) :
    ∀ (fuel : Nat) (s : GameServer) (pr : Projectile),
      (subLoop now cd pid sx sy sub_len fuel s pr).proj.damage = pr.damage ∧
      (subLoop now cd pid sx sy sub_len fuel s pr).proj.range_px = pr.range_px ∧
      (subLoop now cd pid sx sy sub_len fuel s pr).proj.lifetime = pr.lifetime := by
  intro fuel
  induction fuel with
  | zero => exact fun s pr => ⟨rfl, rfl, rfl⟩
  | succ n ih =>
    intro s pr
    rw [subLoop_succ]
    rcases hexit : (subStep now cd pid sx sy sub_len s pr).exit
    case flying =>
      simp only [hexit]
      obtain ⟨hd, hr, hl⟩ :=
        ih (subStep now cd pid sx sy sub_len s pr).srv
          (subStep now cd pid sx sy sub_len s pr).proj
      refine ⟨?_, ?_, ?_⟩
      · rw [hd, subStep_proj]
        rfl
      · rw [hr, subStep_proj]
        rfl
      · rw [hl, subStep_proj]
        rfl
    case hitSomething =>
      simp only [hexit, subStep_proj]
      exact ⟨rfl, rfl, rfl⟩
    case expired =>
      simp only [hexit, subStep_proj]
      exact ⟨rfl, rfl, rfl⟩

/-- A sub-step loop that is still flying after positive fuel ran its last
sub-step's range check: the surviving distance is below the range. -/
theorem subLoop_flying_dist (now : ℚ) (cd : Nat → Int) (pid : Nat)
    (sx sy sub_len : ℚ) :
    ∀ (n : Nat) (s : GameServer) (pr : Projectile),
      (subLoop now cd pid sx sy sub_len (n + 1) s pr).exit = SubExit.flying →
      (subLoop now cd pid sx sy sub_len (n + 1) s pr).proj.dist <
        (subLoop now cd pid sx sy sub_len (n + 1) s pr).proj.range_px := by
  intro n
  induction n with
  | zero =>
    intro s pr h
    rw [subLoop_succ] at h ⊢
    rcases hexit : (subStep now cd pid sx sy sub_len s pr).exit
    case flying =>
      simp only [hexit] at h ⊢
      exact subStep_flying_dist now cd pid sx sy sub_len s pr hexit
    case hitSomething =>
      simp only [hexit] at h
      cases h
    case expired =>
      simp only [hexit] at h
      cases h
  | succ m ih =>
    intro s pr h
    rw [subLoop_succ] at h ⊢
    rcases hexit : (subStep now cd pid sx sy sub_len s pr).exit
    case flying =>
      simp only [hexit] at h ⊢
      exact ih _ _ h
    case hitSomething =>
      simp only [hexit] at h
      cases h
    case expired =>
      simp only [hexit] at h
      cases h

theorem nSteps_ne_zero (td : ℚ) : nSteps td ≠ 0 := by
  unfold nSteps
  omega

/-- Same statement for any non-zero fuel. -/
theorem subLoop_flying_dist' (now : ℚ) (cd : Nat → Int) (pid : Nat)
    (sx sy sub_len : ℚ) (fuel : Nat) (hf : fuel ≠ 0) (s : GameServer)
    (pr : Projectile)
    (h : (subLoop now cd pid sx sy sub_len fuel s pr).exit = SubExit.flying) :
    (subLoop now cd pid sx sy sub_len fuel s pr).proj.dist <
      (subLoop now cd pid sx sy sub_len fuel s pr).proj.range_px := by
  obtain ⟨n, rfl⟩ : ∃ n, fuel = n + 1 := ⟨fuel - 1, by omega⟩
  exact subLoop_flying_dist now cd pid sx sy sub_len n s pr h

/-- A projectile that survives its whole tick satisfies the range
invariant strictly and still has positive safety lifetime. -/
theorem stepProjectile_kept (hyp : ℚ → ℚ → ℚ) (cd : Nat → Int) (now dt : ℚ)
    (s : GameServer) (pr0 : Projectile) (s' : GameServer) (p' : Projectile)
    (o : List Out)
    (h : stepProjectile hyp cd now dt s pr0 = (s', some p', o)) :
    p'.dist < p'.range_px ∧ 0 < p'.lifetime := by
  unfold stepProjectile at h
  dsimp only [] at h
  by_cases h1 : pr0.lifetime - dt ≤ 0
  · rw [if_pos h1] at h
    simp at h
  · rw [if_neg h1] at h
    by_cases h2 : hyp (pr0.vx * dt * 60) (pr0.vy * dt * 60) = 0
    · rw [if_pos h2] at h
      simp at h
    · rw [if_neg h2] at h
      set mx := pr0.vx * dt * 60 with hmx
      set my := pr0.vy * dt * 60 with hmy
      set td := hyp mx my with htd
      set k := nSteps td with hk
      set proj := ({ pr0 with lifetime := pr0.lifetime - dt } : Projectile) with hproj
      rcases hexit : (subLoop now cd pr0.proj_id (mx / (k : ℚ)) (my / (k : ℚ))
          (td / (k : ℚ)) k s proj).exit
      · rw [hexit] at h
        simp only [Prod.mk.injEq, Option.some.injEq] at h
        obtain ⟨-, hp', -⟩ := h
        subst hp'
        constructor
        · exact subLoop_flying_dist' now cd pr0.proj_id _ _ _ k
            (nSteps_ne_zero td) s proj hexit
        · have hl := (subLoop_proj_fields now cd pr0.proj_id (mx / (k : ℚ))
            (my / (k : ℚ)) (td / (k : ℚ)) k s proj).2.2
          rw [hl]
          show 0 < pr0.lifetime - dt
          linarith
      · rw [hexit] at h
        simp at h
      · rw [hexit] at h
        simp at h

/-- Survivors of a whole `tick_projectiles` pass keep the strict range
invariant and a positive lifetime. -/
theorem tickProjectiles_survivors (hyp : ℚ → ℚ → ℚ) (cd : Nat → Int)
    (now dt : ℚ) (s : GameServer) :
    ∀ pr ∈ (tickProjectiles hyp cd now dt s).1.projectiles,
      pr.dist < pr.range_px ∧ 0 < pr.lifetime := by
  have hfold : ∀ (l : List Projectile) (acc : GameServer × List Projectile × List Out),
      (∀ pr ∈ acc.2.1, pr.dist < pr.range_px ∧ 0 < pr.lifetime) →
      ∀ pr ∈ (l.foldl (fun acc proj =>
          let r1 := stepProjectile hyp cd now dt acc.1 proj
          (r1.1, acc.2.1 ++ r1.2.1.toList, acc.2.2 ++ r1.2.2)) acc).2.1,
        pr.dist < pr.range_px ∧ 0 < pr.lifetime := by
    intro l
    induction l with
    | nil => exact fun acc hacc => hacc
    | cons head tail ih =>
      intro acc hacc
      apply ih
      intro pr hpr
      rcases List.mem_append.mp hpr with hmem | hmem
      · exact hacc pr hmem
      · rcases hsp : stepProjectile hyp cd now dt acc.1 head with ⟨s1, po, o1⟩
        rw [hsp] at hmem
        rcases po with _ | p'
        · simp at hmem
        · have : pr = p' := by simpa using hmem
          subst this
          exact stepProjectile_kept hyp cd now dt acc.1 head s1 pr o1 hsp
  intro pr hpr
  exact hfold s.projectiles (s, [], []) (by simp) pr hpr

/-! ## C3 — projectile range/lifetime invariant -/

/-- C3: after a `tick_projectiles` pass every stored projectile satisfies
`dist ≤ range_px` (indeed strictly) and has positive safety lifetime — a
projectile whose distance reaches its range during the tick is removed in
that tick, and none survives a lifetime countdown to zero.  Moreover the
per-sub-step range check precedes the collision tests: once the advanced
distance meets the range budget, the sub-step removes the projectile with
the server state untouched and nothing broadcast, so an expired bullet
deals no damage. -/
theorem claim_C3 (hyp : ℚ → ℚ → ℚ) (cd : Nat → Int) (now dt : ℚ)
    (s : GameServer) :
    (∀ pr ∈ (tickProjectiles hyp cd now dt s).1.projectiles,
        pr.dist ≤ pr.range_px ∧ pr.dist < pr.range_px ∧ 0 < pr.lifetime) ∧
    (∀ (pid : Nat) (sx sy sub_len : ℚ) (s0 : GameServer) (pr : Projectile),
        (advanceProj sx sy sub_len pr).range_px ≤ (advanceProj sx sy sub_len pr).dist →
        subStep now cd pid sx sy sub_len s0 pr =
          ⟨s0, advanceProj sx sy sub_len pr, [], SubExit.expired⟩) := by
  constructor
  · intro pr hpr
    obtain ⟨hlt, hlife⟩ := tickProjectiles_survivors hyp cd now dt s pr hpr
    exact ⟨le_of_lt hlt, hlt, hlife⟩
  · intro pid sx sy sub_len s0 pr hrange
    exact subStep_expired_of_range now cd pid sx sy sub_len s0 pr hrange

/-- C3 witness: the lone pistol bullet of `sFly` survives its tick with
6 px travelled out of 240 and lifetime 59/20. -/
theorem claim_C3_witness :
    projFlyEnd ∈ (tickProjectiles hypX cd0 0 (1/20) sFly).1.projectiles ∧
    projFlyEnd.dist ≤ projFlyEnd.range_px ∧
    projFlyEnd.dist < projFlyEnd.range_px ∧ 0 < projFlyEnd.lifetime :=
  ⟨by decide, (claim_C3 hypX cd0 0 (1/20) sFly).1 projFlyEnd (by decide)⟩

/-! ## C4 — sub-step tunneling prevention -/

/-- C4: `tick_projectiles` sub-steps are at most 2 px long
(`tick_dist / nSteps tick_dist ≤ 2` for every positive displacement), and
in the concrete scenario — a projectile displacing 50 px in one tick
through a stationary, alive, unshielded enemy 8 px wide — the hit
registers: the victim's hp drops from 100 to 30 and the projectile is
removed. -/
theorem claim_C4 :
    (∀ td : ℚ, 0 < td → td / ((nSteps td : Nat) : ℚ) ≤ 2) ∧
    ((tickProjectiles hypX cd0 1 (1/20) s4).1.players.map (fun p => p.hp) = [30] ∧
      (tickProjectiles hypX cd0 1 (1/20) s4).1.projectiles = []) := by
  constructor
  · intro td htd
    have hceil : (td / 2 : ℚ) ≤ ((Int.ceil (td / 2) : Int) : ℚ) := Int.le_ceil _
    have hpos : (0 : ℤ) < Int.ceil (td / 2) := by
      rw [Int.lt_ceil]
      positivity
    have hk : ((nSteps td : Nat) : ℚ) = ((Int.ceil (td / 2) : Int) : ℚ) := by
      unfold nSteps
      have h1 : (Int.ceil (td / 2)).toNat = Int.ceil (td / 2) := Int.toNat_of_nonneg (le_of_lt hpos)
      have h2 : max 1 (Int.ceil (td / 2)).toNat = (Int.ceil (td / 2)).toNat := by
        have : 1 ≤ (Int.ceil (td / 2)).toNat := by omega
        omega
      rw [h2]
      exact_mod_cast congrArg (fun z : ℤ => (z : ℚ)) h1
    have hkpos : (0 : ℚ) < ((nSteps td : Nat) : ℚ) := by
      rw [hk]
      exact_mod_cast hpos
    rw [div_le_iff₀ hkpos, hk]
    linarith
  · exact ⟨by decide, by decide⟩

/-- C4 witness: the scenario's displacement 50 yields 25 sub-steps of
exactly 2 px. -/
theorem claim_C4_witness :
    (0 : ℚ) < 50 ∧ (50 : ℚ) / ((nSteps 50 : Nat) : ℚ) ≤ 2 :=
  ⟨by norm_num, claim_C4.1 50 (by norm_num)⟩

/-! ## Player-evolution lemmas for the projectile pass (C5, C7) -/

theorem killedCount_append (pid : Nat) (o1 o2 : List Out) :
    killedCount pid (o1 ++ o2) = killedCount pid o1 + killedCount pid o2 :=
  List.countP_append _ _ _

/-- Outputs that contain no `player_killed` broadcast naming `pid` count
zero kills for `pid`. -/
theorem killedCount_eq_zero {pid : Nat} {o : List Out}
    (h : ∀ v k x y, Out.broadcast (SMsg.player_killed v k x y) ∈ o → v ≠ pid) :
    killedCount pid o = 0 := by
  unfold killedCount
  rw [List.countP_eq_zero]
  intro a ha
  rcases a with m | ⟨i, m⟩
  · cases m <;> simp
    case player_killed v k x y => exact h v k x y ha
  · simp

theorem killedCount_nil (pid : Nat) : killedCount pid [] = 0 := rfl

theorem killedCount_dropWeapon (pid : Nat) (s : GameServer) (pl : PlayerState) :
    killedCount pid (dropWeapon s pl).2.2 = 0 := by
  unfold dropWeapon
  split
  · rfl
  · rfl

theorem killedCount_checkWin (pid : Nat) (s : GameServer) :
    killedCount pid (checkWinCondition s).2 = 0 := by
  unfold checkWinCondition
  split
  · rfl
  · split
    · rfl
    · rfl

theorem tickEvol_self (hd : Prop) (now : ℚ) (o : List Out) (p : PlayerState)
    (hz : killedCount p.player_id o = 0) : tickEvol hd now o p p := by
  refine ⟨rfl, rfl, fun h => h, fun _ h => ⟨le_refl _, h⟩, ?_, fun _ => ⟨rfl, rfl⟩⟩
  rw [hz, if_neg]
  rintro ⟨h1, h2⟩
  rw [h1] at h2
  cases h2

theorem tickEvol_refl (hd : Prop) (now : ℚ) (p : PlayerState) :
    tickEvol hd now [] p p :=
  tickEvol_self hd now [] p (killedCount_nil _)

theorem tickEvol_trans (hd : Prop) (now : ℚ) (o1 o2 : List Out)
    (p q r : PlayerState) (h1 : tickEvol hd now o1 p q)
    (h2 : tickEvol hd now o2 q r) : tickEvol hd now (o1 ++ o2) p r := by
  obtain ⟨hid1, hsh1, hal1, hhp1, hkc1, hfr1⟩ := h1
  obtain ⟨hid2, hsh2, hal2, hhp2, hkc2, hfr2⟩ := h2
  refine ⟨hid2.trans hid1, hsh2.trans hsh1, fun h => hal1 (hal2 h), ?_, ?_, ?_⟩
  · intro hD hinv
    obtain ⟨ha, hb⟩ := hhp1 hD hinv
    obtain ⟨hc, hdd⟩ := hhp2 hD hb
    exact ⟨hc.trans ha, hdd⟩
  · rw [hid1] at hkc2
    rw [killedCount_append, hkc1, hkc2]
    rcases hpa : p.alive <;> rcases hqa : q.alive <;> rcases hra : r.alive <;>
      simp_all
  · intro hcond
    obtain ⟨hhp, hal⟩ := hfr1 hcond
    have hcond2 : q.alive = false ∨ now < q.shield_until := by
      rcases hcond with hc | hc
      · exact Or.inl (by rw [hal, hc])
      · exact Or.inr (by rw [hsh1]; exact hc)
    obtain ⟨hhp', hal'⟩ := hfr2 hcond2
    exact ⟨hhp'.trans hhp, hal'.trans hal⟩

theorem forall₂_tickEvol_self (hd : Prop) (now : ℚ) (o : List Out)
    (ps : List PlayerState) (hz : ∀ q ∈ ps, killedCount q.player_id o = 0) :
    List.Forall₂ (tickEvol hd now o) ps ps :=
  List.forall₂_same.mpr (fun p hp => tickEvol_self hd now o p (hz p hp))

theorem forall₂_tickEvol_refl (hd : Prop) (now : ℚ) (ps : List PlayerState) :
    List.Forall₂ (tickEvol hd now []) ps ps :=
  forall₂_tickEvol_self hd now [] ps (fun _ _ => killedCount_nil _)

theorem forall₂_tickEvol_trans (hd : Prop) (now : ℚ) (o1 o2 : List Out)
    (ps qs rs : List PlayerState)
    (h1 : List.Forall₂ (tickEvol hd now o1) ps qs)
    (h2 : List.Forall₂ (tickEvol hd now o2) qs rs) :
    List.Forall₂ (tickEvol hd now (o1 ++ o2)) ps rs := by
  induction h1 generalizing rs with
  | nil =>
    cases h2
    exact List.Forall₂.nil
  | cons hpq _ ih =>
    cases h2 with
    | cons hqr htail2 =>
      exact List.Forall₂.cons (tickEvol_trans hd now o1 o2 _ _ _ hpq hqr) (ih _ htail2)

theorem nodup_player_inj {ps : List PlayerState}
    (hnd : (ps.map (fun q => q.player_id)).Nodup)
    {a b : PlayerState} (ha : a ∈ ps) (hb : b ∈ ps)
    (hab : a.player_id = b.player_id) : a = b :=
  List.inj_on_of_nodup_map hnd ha hb hab

theorem setPlayer_map_id (ps : List PlayerState) (p : PlayerState) :
    (setPlayer ps p).map (fun q => q.player_id) = ps.map (fun q => q.player_id) := by
  induction ps with
  | nil => rfl
  | cons a t ih =>
    simp only [setPlayer, List.map_cons] at ih ⊢
    by_cases h : a.player_id = p.player_id
    · rw [if_pos h, ih, h]
    · rw [if_neg h, ih]

/-- Replacing one player (found in the list, id preserved) by a related
record relates the whole list, provided no other player's kill count shows
up in the log. -/
theorem forall₂_setPlayer (hd : Prop) (now : ℚ) (o : List Out)
    (ps : List PlayerState) (p p' : PlayerState)
    (hnd : (ps.map (fun q => q.player_id)).Nodup)
    (hmem : p ∈ ps) (hid : p'.player_id = p.player_id)
    (hrel : tickEvol hd now o p p')
    (hz : ∀ q ∈ ps, q.player_id ≠ p.player_id → killedCount q.player_id o = 0) :
    List.Forall₂ (tickEvol hd now o) ps (setPlayer ps p') := by
  unfold setPlayer
  rw [List.forall₂_map_right_iff, List.forall₂_same]
  intro q hq
  by_cases hcase : q.player_id = p.player_id
  · have hqp : q = p := nodup_player_inj hnd hq hmem hcase
    subst hqp
    rw [if_pos (by rw [hid])]
    exact hrel
  · rw [if_neg (by rw [hid]; exact hcase)]
    exact tickEvol_self hd now o q (hz q hq hcase)

theorem forall₂_mem_right {R : PlayerState → PlayerState → Prop}
    {l1 l2 : List PlayerState} (h : List.Forall₂ R l1 l2) {q : PlayerState}
    (hq : q ∈ l2) : ∃ p ∈ l1, R p q := by
  induction h with
  | nil => cases hq
  | cons hab _ ih =>
    rcases List.mem_cons.mp hq with rfl | hq'
    · exact ⟨_, List.mem_cons_self _ _, hab⟩
    · obtain ⟨p, hp, hR⟩ := ih hq'
      exact ⟨p, List.mem_cons_of_mem _ hp, hR⟩

/-- With unique ids, a `Forall₂` of an id-preserving relation matches up a
source player with the result entry carrying the same id. -/
theorem forall₂_lookup {R : PlayerState → PlayerState → Prop}
    (hidR : ∀ p q, R p q → q.player_id = p.player_id)
    {ps qs : List PlayerState}
    (hnd : (ps.map (fun q => q.player_id)).Nodup)
    (h : List.Forall₂ R ps qs) {p q : PlayerState}
    (hp : p ∈ ps) (hq : q ∈ qs) (heq : q.player_id = p.player_id) : R p q := by
  induction h with
  | nil => cases hp
  | cons hab htail ih =>
    rename_i a l1 b l2
    simp only [List.map_cons, List.nodup_cons] at hnd
    rcases List.mem_cons.mp hp with rfl | hp' <;> rcases List.mem_cons.mp hq with rfl | hq'
    · exact hab
    · obtain ⟨p', hp', hR⟩ := forall₂_mem_right htail hq'
      have hpid : p'.player_id = p.player_id := (hidR p' q hR).symm.trans heq
      exact absurd (hpid ▸ List.mem_map_of_mem (fun r => r.player_id) hp') hnd.1
    · have hba : q.player_id = a.player_id := hidR a q hab
      have : p.player_id = a.player_id := heq.symm.trans hba
      exact absurd (this ▸ List.mem_map_of_mem (fun r => r.player_id) hp') hnd.1
    · exact ih hnd.2 hp' hq'

theorem dropWeapon_players (s : GameServer) (pl : PlayerState) :
    (dropWeapon s pl).1.players = s.players := by
  unfold dropWeapon
  split <;> rfl

theorem dropWeapon_player_id (s : GameServer) (pl : PlayerState) :
    (dropWeapon s pl).2.1.player_id = pl.player_id := by
  unfold dropWeapon
  split <;> rfl

theorem dropWeapon_player_hp (s : GameServer) (pl : PlayerState) :
    (dropWeapon s pl).2.1.hp = pl.hp := by
  unfold dropWeapon
  split <;> rfl

theorem dropWeapon_player_alive (s : GameServer) (pl : PlayerState) :
    (dropWeapon s pl).2.1.alive = pl.alive := by
  unfold dropWeapon
  split <;> rfl

theorem dropWeapon_player_shield (s : GameServer) (pl : PlayerState) :
    (dropWeapon s pl).2.1.shield_until = pl.shield_until := by
  unfold dropWeapon
  split <;> rfl

theorem checkWin_players (s : GameServer) :
    (checkWinCondition s).1.players = s.players := by
  unfold checkWinCondition
  split
  · rfl
  · split <;> rfl

theorem killedCount_cons (pid : Nat) (x : Out) (l : List Out) :
    killedCount pid (x :: l) = killedCount pid [x] + killedCount pid l := by
  unfold killedCount
  rw [List.countP_cons, List.countP_cons, List.countP_nil]
  omega

theorem killedCount_single_kill (pid v : Nat) (k : Int) (x y : ℚ) :
    killedCount pid [Out.broadcast (SMsg.player_killed v k x y)] =
      if v = pid then 1 else 0 := by
  unfold killedCount
  rw [List.countP_cons, List.countP_nil]
  by_cases h : v = pid
  · simp [h]
  · simp [h]

theorem killVictim_players (s : GameServer) (plr : PlayerState) :
    (killVictim s plr).1.players = setPlayer s.players (killVictim s plr).2.1 := by
  unfold killVictim
  dsimp only []
  rw [dropWeapon_players]

theorem killVictim_vic_id (s : GameServer) (plr : PlayerState) :
    (killVictim s plr).2.1.player_id = plr.player_id := by
  unfold killVictim
  dsimp only []
  rw [dropWeapon_player_id]

theorem killVictim_vic_hp (s : GameServer) (plr : PlayerState) :
    (killVictim s plr).2.1.hp = 0 := by
  unfold killVictim
  dsimp only []
  rw [dropWeapon_player_hp]

theorem killVictim_vic_alive (s : GameServer) (plr : PlayerState) :
    (killVictim s plr).2.1.alive = false := by
  unfold killVictim
  dsimp only []
  rw [dropWeapon_player_alive]

theorem killVictim_vic_shield (s : GameServer) (plr : PlayerState) :
    (killVictim s plr).2.1.shield_until = plr.shield_until := by
  unfold killVictim
  dsimp only []
  rw [dropWeapon_player_shield]

theorem killVictim_kc (pid : Nat) (s : GameServer) (plr : PlayerState) :
    killedCount pid (killVictim s plr).2.2 = 0 := by
  unfold killVictim
  dsimp only []
  exact killedCount_dropWeapon pid s _

theorem killVictim_ids (s : GameServer) (plr : PlayerState) :
    (killVictim s plr).1.players.map (fun q => q.player_id) =
      s.players.map (fun q => q.player_id) := by
  rw [killVictim_players, setPlayer_map_id]

/-- Death processing relates the victim's team-mates trivially and the
victim by a kill, for any out-log whose kill counts say exactly that. -/
theorem killVictim_evol (hd : Prop) (now : ℚ) (s : GameServer)
    (plr : PlayerState)
    (hnd : (s.players.map (fun q => q.player_id)).Nodup)
    (hmem : plr ∈ s.players)
    (halive : plr.alive = true)
    (hshield : ¬ now < plr.shield_until)
    (o : List Out)
    (hko : killedCount plr.player_id o = 1)
    (hko0 : ∀ q ∈ s.players, q.player_id ≠ plr.player_id →
      killedCount q.player_id o = 0) :
    List.Forall₂ (tickEvol hd now o) s.players (killVictim s plr).1.players := by
  rw [killVictim_players]
  refine forall₂_setPlayer hd now o s.players plr _ hnd hmem
    (killVictim_vic_id s plr) ?_ hko0
  refine ⟨killVictim_vic_id s plr, killVictim_vic_shield s plr,
    fun _ => halive, ?_, ?_, ?_⟩
  · intro _ hinv
    refine ⟨?_, ?_⟩
    · rw [killVictim_vic_hp]
      exact le_of_lt (hinv halive)
    · intro h
      rw [killVictim_vic_alive] at h
      cases h
  · rw [hko, if_pos ⟨halive, killVictim_vic_alive s plr⟩]
  · rintro (h | h)
    · rw [halive] at h
      cases h
    · exact absurd h hshield

theorem creditKiller_ids (owner_id : Nat) (s : GameServer) :
    (creditKiller owner_id s).1.players.map (fun q => q.player_id) =
      s.players.map (fun q => q.player_id) := by
  unfold creditKiller
  rcases findPlayer s owner_id with _ | killer
  · rfl
  · exact setPlayer_map_id _ _

theorem creditKiller_kc (pid : Nat) (owner_id : Nat) (s : GameServer) :
    killedCount pid (creditKiller owner_id s).2 = 0 := by
  unfold creditKiller
  rcases findPlayer s owner_id with _ | killer
  · rfl
  · rfl

/-- Crediting the killer only changes coin and kill counters, so every
player evolves trivially. -/
theorem creditKiller_evol (hd : Prop) (now : ℚ) (owner_id : Nat)
    (s : GameServer)
    (hnd : (s.players.map (fun q => q.player_id)).Nodup) :
    List.Forall₂ (tickEvol hd now []) s.players (creditKiller owner_id s).1.players := by
  unfold creditKiller
  rcases hfk : findPlayer s owner_id with _ | killer
  · exact forall₂_tickEvol_refl hd now s.players
  · have hkmem : killer ∈ s.players := List.mem_of_find?_eq_some hfk
    dsimp only []
    refine forall₂_setPlayer hd now [] s.players killer _ hnd hkmem rfl ?_
      (fun q _ _ => killedCount_nil _)
    refine ⟨rfl, rfl, fun h => h, fun _ h => ⟨le_refl _, h⟩, ?_, fun _ => ⟨rfl, rfl⟩⟩
    rw [killedCount_nil, if_neg]
    rintro ⟨h1, h2⟩
    rw [h1] at h2
    cases h2

theorem killedCount_hitOut (pid pid2 v : Nat) (d h : Int) (x y : ℚ) :
    killedCount pid [Out.broadcast (SMsg.projectile_hit pid2 v d h x y)] = 0 := rfl

/-- The player-hit body evolves every player according to `tickEvol` with
its own out-log, and preserves the id layout. -/
theorem applyPlayerHit_evol (hd : Prop) (now : ℚ) (pid : Nat) (s : GameServer)
    (proj : Projectile) (plr : PlayerState)
    (hnd : (s.players.map (fun q => q.player_id)).Nodup)
    (hmem : plr ∈ s.players)
    (halive : plr.alive = true)
    (hshield : ¬ now < plr.shield_until)
    (hdmg : hd → 0 ≤ proj.damage) :
    List.Forall₂ (tickEvol hd now (applyPlayerHit pid s proj plr).2) s.players
      (applyPlayerHit pid s proj plr).1.players ∧
    (applyPlayerHit pid s proj plr).1.players.map (fun q => q.player_id) =
      s.players.map (fun q => q.player_id) := by
  unfold applyPlayerHit
  dsimp only []
  by_cases hdeath : plr.hp - proj.damage ≤ 0
  · rw [if_pos hdeath]
    dsimp only []
    have hkc : ∀ qid : Nat,
        killedCount qid
          (Out.broadcast (SMsg.projectile_hit pid plr.player_id proj.damage
              (max 0 (plr.hp - proj.damage)) proj.x proj.y) ::
            ((killVictim s plr).2.2 ++
              (creditKiller proj.owner_id (killVictim s plr).1).2 ++
              [Out.broadcast (SMsg.player_killed plr.player_id
                (proj.owner_id : Int) plr.x plr.y)] ++
              (checkWinCondition (creditKiller proj.owner_id (killVictim s plr).1).1).2)) =
          (if plr.player_id = qid then 1 else 0) := by
      intro qid
      rw [killedCount_cons, killedCount_append, killedCount_append,
        killedCount_append, killVictim_kc, creditKiller_kc, killedCount_checkWin,
        killedCount_single_kill, killedCount_hitOut]
      omega
    have hnd2 : ((killVictim s plr).1.players.map (fun q => q.player_id)).Nodup := by
      rw [killVictim_ids]
      exact hnd
    have hstage1 := killVictim_evol hd now s plr hnd hmem halive hshield _
      (by rw [hkc, if_pos rfl])
      (by
        intro q hq hne
        rw [hkc, if_neg (fun h => hne h.symm)])
    have hstage2 := creditKiller_evol hd now proj.owner_id (killVictim s plr).1 hnd2
    constructor
    · rw [checkWin_players]
      have := forall₂_tickEvol_trans hd now _ [] s.players
        (killVictim s plr).1.players
        (creditKiller proj.owner_id (killVictim s plr).1).1.players hstage1 hstage2
      rw [List.append_nil] at this
      exact this
    · rw [checkWin_players, creditKiller_ids, killVictim_ids]
  · rw [if_neg hdeath]
    dsimp only []
    constructor
    · refine forall₂_setPlayer hd now _ s.players plr
        ({ plr with hp := plr.hp - proj.damage }) hnd hmem rfl ?_
        (fun q _ _ => rfl)
      refine ⟨rfl, rfl, fun h => h, ?_, ?_, ?_⟩
      · intro hD _
        refine ⟨sub_le_self _ (hdmg hD), fun _ => ?_⟩
        show 0 < plr.hp - proj.damage
        exact lt_of_not_le hdeath
      · rw [if_neg]
        · rfl
        · rintro ⟨h1, h2⟩
          rw [h1] at h2
          cases h2
      · rintro (h | h)
        · rw [halive] at h
          cases h
        · exact absurd h hshield
    · exact setPlayer_map_id _ _

theorem findPlayer_set_objects (s : GameServer) (os : List BreakableObject)
    (pid : Nat) : findPlayer { s with objects := os } pid = findPlayer s pid := rfl

/-- The breakable-object body never touches hp, alive or shield fields and
broadcasts no `player_killed`. -/
theorem applyObjectHit_evol (hd : Prop) (now : ℚ) (cd : Nat → Int)
    (s : GameServer) (proj : Projectile) (obj : BreakableObject)
    (hnd : (s.players.map (fun q => q.player_id)).Nodup) :
    List.Forall₂ (tickEvol hd now (applyObjectHit cd s proj obj).2) s.players
      (applyObjectHit cd s proj obj).1.players ∧
    (applyObjectHit cd s proj obj).1.players.map (fun q => q.player_id) =
      s.players.map (fun q => q.player_id) := by
  unfold applyObjectHit
  dsimp only []
  by_cases hdes : obj.hp - BREAKABLE_PROJECTILE_DAMAGE ≤ 0
  · rw [if_pos hdes]
    rw [findPlayer_set_objects]
    rcases hfk : findPlayer s proj.owner_id with _ | shooter
    · exact ⟨forall₂_tickEvol_self hd now _ s.players (fun q _ => rfl), rfl⟩
    · have hkmem : shooter ∈ s.players := List.mem_of_find?_eq_some hfk
      dsimp only []
      constructor
      · refine forall₂_setPlayer hd now _ s.players shooter _ hnd hkmem rfl ?_
          (fun q _ _ => rfl)
        refine ⟨rfl, rfl, fun h => h, fun _ h => ⟨le_refl _, h⟩, ?_, fun _ => ⟨rfl, rfl⟩⟩
        rw [if_neg]
        · rfl
        · rintro ⟨h1, h2⟩
          rw [h1] at h2
          cases h2
      · exact setPlayer_map_id _ _
  · rw [if_neg hdes]
    exact ⟨forall₂_tickEvol_self hd now _ s.players (fun q _ => rfl), rfl⟩

/-- One sub-step evolves every player by `tickEvol` over its own log and
keeps the id layout. -/
theorem subStep_evol (hd : Prop) (now : ℚ) (cd : Nat → Int) (pid : Nat)
    (sx sy sub_len : ℚ) (s : GameServer) (pr : Projectile)
    (hnd : (s.players.map (fun q => q.player_id)).Nodup)
    (hdmg : hd → 0 ≤ pr.damage) :
    List.Forall₂ (tickEvol hd now (subStep now cd pid sx sy sub_len s pr).out)
      s.players (subStep now cd pid sx sy sub_len s pr).srv.players ∧
    (subStep now cd pid sx sy sub_len s pr).srv.players.map (fun q => q.player_id) =
      s.players.map (fun q => q.player_id) := by
  unfold subStep
  dsimp only []
  by_cases h1 : (advanceProj sx sy sub_len pr).range_px ≤ (advanceProj sx sy sub_len pr).dist
  · rw [if_pos h1]
    exact ⟨forall₂_tickEvol_refl hd now s.players, rfl⟩
  · rw [if_neg h1]
    by_cases h2 : outOfBounds (advanceProj sx sy sub_len pr) = true
    · rw [if_pos h2]
      exact ⟨forall₂_tickEvol_refl hd now s.players, rfl⟩
    · rw [if_neg h2]
      rcases hfp : List.find? (fun plr =>
          eligibleTarget now (advanceProj sx sy sub_len pr) plr &&
          overlapsPlayer (advanceProj sx sy sub_len pr) plr) s.players with _ | plr
      · rcases hfo : List.find? (fun obj =>
            obj.alive && overlapsObject (advanceProj sx sy sub_len pr) obj)
            s.objects with _ | obj
        · try simp only [hfo]
          try dsimp only []
          exact ⟨forall₂_tickEvol_refl hd now s.players, by trivial⟩
        · try simp only [hfo]
          try dsimp only []
          exact applyObjectHit_evol hd now cd s (advanceProj sx sy sub_len pr) obj hnd
      · try simp only [hfp]
        try dsimp only []
        have hpred := List.find?_some hfp
        have hmem := List.mem_of_find?_eq_some hfp
        rw [Bool.and_eq_true] at hpred
        have helig := hpred.1
        unfold eligibleTarget at helig
        simp only [Bool.and_eq_true, Bool.not_eq_true', Bool.or_eq_false_iff,
          decide_eq_false_iff_not] at helig
        exact applyPlayerHit_evol hd now pid s (advanceProj sx sy sub_len pr) plr
          hnd hmem helig.2.1 helig.2.2 hdmg

/-- The sub-step loop evolves every player by `tickEvol` over its log. -/
theorem subLoop_evol (hd : Prop) (now : ℚ) (cd : Nat → Int) (pid : Nat)
    (sx sy sub_len : ℚ) :
    ∀ (fuel : Nat) (s : GameServer) (pr : Projectile),
      (s.players.map (fun q => q.player_id)).Nodup →
      (hd → 0 ≤ pr.damage) →
      List.Forall₂ (tickEvol hd now (subLoop now cd pid sx sy sub_len fuel s pr).out)
        s.players (subLoop now cd pid sx sy sub_len fuel s pr).srv.players ∧
      (subLoop now cd pid sx sy sub_len fuel s pr).srv.players.map (fun q => q.player_id) =
        s.players.map (fun q => q.player_id) := by
  intro fuel
  induction fuel with
  | zero => exact fun s pr _ _ => ⟨forall₂_tickEvol_refl hd now s.players, rfl⟩
  | succ n ih =>
    intro s pr hnd hdmg
    rw [subLoop_succ]
    rcases hexit : (subStep now cd pid sx sy sub_len s pr).exit
    case flying =>
      simp only [hexit]
      have hstep := subStep_evol hd now cd pid sx sy sub_len s pr hnd hdmg
      have hdmg2 : hd → 0 ≤ (subStep now cd pid sx sy sub_len s pr).proj.damage := by
        intro h
        rw [subStep_proj]
        exact hdmg h
      have hnd2 : ((subStep now cd pid sx sy sub_len s pr).srv.players.map
          (fun q => q.player_id)).Nodup := by
        rw [hstep.2]
        exact hnd
      have hrest := ih (subStep now cd pid sx sy sub_len s pr).srv
        (subStep now cd pid sx sy sub_len s pr).proj hnd2 hdmg2
      exact ⟨forall₂_tickEvol_trans hd now _ _ _ _ _ hstep.1 hrest.1,
        hrest.2.trans hstep.2⟩
    case hitSomething =>
      simp only [hexit]
      exact subStep_evol hd now cd pid sx sy sub_len s pr hnd hdmg
    case expired =>
      simp only [hexit]
      exact subStep_evol hd now cd pid sx sy sub_len s pr hnd hdmg

/-- One projectile's whole tick evolves every player by `tickEvol` over
its emitted log. -/
theorem stepProjectile_evol (hd : Prop) (hyp : ℚ → ℚ → ℚ) (cd : Nat → Int)
    (now dt : ℚ) (s : GameServer) (pr0 : Projectile)
    (hnd : (s.players.map (fun q => q.player_id)).Nodup)
    (hdmg : hd → 0 ≤ pr0.damage) :
    List.Forall₂ (tickEvol hd now (stepProjectile hyp cd now dt s pr0).2.2)
      s.players (stepProjectile hyp cd now dt s pr0).1.players ∧
    (stepProjectile hyp cd now dt s pr0).1.players.map (fun q => q.player_id) =
      s.players.map (fun q => q.player_id) := by
  unfold stepProjectile
  dsimp only []
  by_cases h1 : pr0.lifetime - dt ≤ 0
  · rw [if_pos h1]
    exact ⟨forall₂_tickEvol_refl hd now s.players, rfl⟩
  · rw [if_neg h1]
    by_cases h2 : hyp (pr0.vx * dt * 60) (pr0.vy * dt * 60) = 0
    · rw [if_pos h2]
      exact ⟨forall₂_tickEvol_refl hd now s.players, rfl⟩
    · rw [if_neg h2]
      rcases hexit : (subLoop now cd pr0.proj_id
          (pr0.vx * dt * 60 / ((nSteps (hyp (pr0.vx * dt * 60) (pr0.vy * dt * 60)) : Nat) : ℚ))
          (pr0.vy * dt * 60 / ((nSteps (hyp (pr0.vx * dt * 60) (pr0.vy * dt * 60)) : Nat) : ℚ))
          (hyp (pr0.vx * dt * 60) (pr0.vy * dt * 60) /
            ((nSteps (hyp (pr0.vx * dt * 60) (pr0.vy * dt * 60)) : Nat) : ℚ))
          (nSteps (hyp (pr0.vx * dt * 60) (pr0.vy * dt * 60))) s
          { pr0 with lifetime := pr0.lifetime - dt }).exit <;>
        dsimp only [] <;>
        exact subLoop_evol hd now cd pr0.proj_id _ _ _ _ s
          { pr0 with lifetime := pr0.lifetime - dt } hnd hdmg

/-- The whole `tick_projectiles` fold evolves every player by `tickEvol`
over the messages the fold appends. -/
theorem tickFold_evol (hd : Prop) (hyp : ℚ → ℚ → ℚ) (cd : Nat → Int)
    (now dt : ℚ) :
    ∀ (l : List Projectile) (s0 : GameServer) (k0 : List Projectile) (o0 : List Out),
      (∀ pr ∈ l, hd → 0 ≤ pr.damage) →
      (s0.players.map (fun q => q.player_id)).Nodup →
      ∃ o1,
        (l.foldl (fun acc proj =>
            let r1 := stepProjectile hyp cd now dt acc.1 proj
            (r1.1, acc.2.1 ++ r1.2.1.toList, acc.2.2 ++ r1.2.2)) (s0, k0, o0)).2.2 =
          o0 ++ o1 ∧
        List.Forall₂ (tickEvol hd now o1) s0.players
          (l.foldl (fun acc proj =>
            let r1 := stepProjectile hyp cd now dt acc.1 proj
            (r1.1, acc.2.1 ++ r1.2.1.toList, acc.2.2 ++ r1.2.2)) (s0, k0, o0)).1.players ∧
        (l.foldl (fun acc proj =>
            let r1 := stepProjectile hyp cd now dt acc.1 proj
            (r1.1, acc.2.1 ++ r1.2.1.toList, acc.2.2 ++ r1.2.2)) (s0, k0, o0)).1.players.map
          (fun q => q.player_id) = s0.players.map (fun q => q.player_id) := by
  intro l
  induction l with
  | nil =>
    intro s0 k0 o0 _ _
    exact ⟨[], by simp, forall₂_tickEvol_refl hd now s0.players, rfl⟩
  | cons head tail ih =>
    intro s0 k0 o0 hdm hnd
    have hstep := stepProjectile_evol hd hyp cd now dt s0 head hnd
      (hdm head (List.mem_cons_self _ _))
    obtain ⟨o1, ho1, hF, hids⟩ := ih (stepProjectile hyp cd now dt s0 head).1
      (k0 ++ (stepProjectile hyp cd now dt s0 head).2.1.toList)
      (o0 ++ (stepProjectile hyp cd now dt s0 head).2.2)
      (fun pr h => hdm pr (List.mem_cons_of_mem _ h))
      (by rw [hstep.2]; exact hnd)
    rw [List.foldl_cons]
    refine ⟨(stepProjectile hyp cd now dt s0 head).2.2 ++ o1, ?_, ?_, ?_⟩
    · show (tail.foldl _ ((stepProjectile hyp cd now dt s0 head).1,
        k0 ++ (stepProjectile hyp cd now dt s0 head).2.1.toList,
        o0 ++ (stepProjectile hyp cd now dt s0 head).2.2)).2.2 = _
      rw [ho1, List.append_assoc]
    · exact forall₂_tickEvol_trans hd now _ _ _ _ _ hstep.1 hF
    · exact hids.trans hstep.2

theorem mem_setPlayer (ps : List PlayerState) (pnew q : PlayerState)
    (hq : q ∈ setPlayer ps pnew) :
    ∃ r ∈ ps, q = (if r.player_id = pnew.player_id then pnew else r) := by
  unfold setPlayer at hq
  obtain ⟨r, hr, hrq⟩ := List.mem_map.mp hq
  exact ⟨r, hr, hrq.symm⟩

theorem mem_setPlayer_or (ps : List PlayerState) (pnew q : PlayerState)
    (hq : q ∈ setPlayer ps pnew) : q ∈ ps ∨ q = pnew := by
  obtain ⟨r, hr, hrq⟩ := mem_setPlayer ps pnew q hq
  by_cases h : r.player_id = pnew.player_id
  · rw [if_pos h] at hrq
    exact Or.inr hrq
  · rw [if_neg h] at hrq
    exact Or.inl (hrq ▸ hr)

/-- Apart from the hit victim, a player hit leaves every player's hp and
alive flag as some original player's with the same id. -/
theorem applyPlayerHit_other (pid : Nat) (s : GameServer) (proj : Projectile)
    (vic : PlayerState)
    (q : PlayerState) (hq : q ∈ (applyPlayerHit pid s proj vic).1.players)
    (hne : q.player_id ≠ vic.player_id) :
    ∃ r ∈ s.players, q.player_id = r.player_id ∧ q.hp = r.hp ∧ q.alive = r.alive := by
  unfold applyPlayerHit at hq
  dsimp only [] at hq
  by_cases hdeath : vic.hp - proj.damage ≤ 0
  · rw [if_pos hdeath] at hq
    dsimp only [] at hq
    rw [checkWin_players] at hq
    -- peel the killer-credit layer
    have hstep2 : ∃ q2 ∈ (killVictim s vic).1.players,
        q.player_id = q2.player_id ∧ q.hp = q2.hp ∧ q.alive = q2.alive := by
      revert hq
      unfold creditKiller
      rcases hfk : findPlayer (killVictim s vic).1 proj.owner_id with _ | killer
      · intro hq
        exact ⟨q, hq, rfl, rfl, rfl⟩
      · intro hq
        dsimp only [] at hq
        obtain ⟨r, hr, hrq⟩ := mem_setPlayer _ _ _ hq
        by_cases hid : r.player_id = killer.player_id
        · rw [if_pos hid] at hrq
          subst hrq
          exact ⟨killer, List.mem_of_find?_eq_some hfk, hid.symm ▸ rfl, rfl, rfl⟩
        · rw [if_neg hid] at hrq
          subst hrq
          exact ⟨q, hr, rfl, rfl, rfl⟩
    obtain ⟨q2, hq2, hqid, hqhp, hqal⟩ := hstep2
    rw [killVictim_players] at hq2
    obtain ⟨r, hr, hrq⟩ := mem_setPlayer _ _ _ hq2
    by_cases hid : r.player_id = (killVictim s vic).2.1.player_id
    · rw [if_pos hid] at hrq
      subst hrq
      rw [killVictim_vic_id] at hqid
      exact absurd hqid hne
    · rw [if_neg hid] at hrq
      subst hrq
      exact ⟨q2, hr, hqid, hqhp, hqal⟩
  · rw [if_neg hdeath] at hq
    dsimp only [] at hq
    obtain ⟨r, hr, hrq⟩ := mem_setPlayer _ _ _ hq
    by_cases hid : r.player_id = vic.player_id
    · rw [if_pos hid] at hrq
      subst hrq
      exact absurd rfl hne
    · rw [if_neg hid] at hrq
      subst hrq
      exact ⟨q, hr, rfl, rfl, rfl⟩

/-- An object hit leaves every player's hp and alive flag as some original
player's with the same id (only the shooter's coins change). -/
theorem applyObjectHit_other (cd : Nat → Int) (s : GameServer)
    (proj : Projectile) (obj : BreakableObject)
    (q : PlayerState) (hq : q ∈ (applyObjectHit cd s proj obj).1.players) :
    ∃ r ∈ s.players, q.player_id = r.player_id ∧ q.hp = r.hp ∧ q.alive = r.alive := by
  unfold applyObjectHit at hq
  dsimp only [] at hq
  by_cases hdes : obj.hp - BREAKABLE_PROJECTILE_DAMAGE ≤ 0
  · rw [if_pos hdes] at hq
    rw [findPlayer_set_objects] at hq
    revert hq
    rcases hfk : findPlayer s proj.owner_id with _ | shooter
    · intro hq
      exact ⟨q, hq, rfl, rfl, rfl⟩
    · intro hq
      dsimp only [] at hq
      obtain ⟨r, hr, hrq⟩ := mem_setPlayer _ _ _ hq
      by_cases hid : r.player_id = shooter.player_id
      · rw [if_pos hid] at hrq
        subst hrq
        exact ⟨shooter, List.mem_of_find?_eq_some hfk, hid.symm ▸ rfl, rfl, rfl⟩
      · rw [if_neg hid] at hrq
        subst hrq
        exact ⟨q, hr, rfl, rfl, rfl⟩
  · rw [if_neg hdes] at hq
    exact ⟨q, hq, rfl, rfl, rfl⟩

theorem forall₂_imp_mem {R S : PlayerState → PlayerState → Prop}
    {ps qs : List PlayerState} (h : List.Forall₂ R ps qs)
    (him : ∀ p q, p ∈ ps → R p q → S p q) : List.Forall₂ S ps qs := by
  induction h with
  | nil => exact List.Forall₂.nil
  | cons hab _ ih =>
    exact List.Forall₂.cons (him _ _ (List.mem_cons_self _ _) hab)
      (ih (fun p q hp hr => him p q (List.mem_cons_of_mem _ hp) hr))

/-! ## C5 — damage monotonicity and single death -/

/-- C5: across one `tick_projectiles` pass (unique player ids, projectile
damages non-negative as `spawn_projectile` guarantees, and the standing
player invariant `alive → hp > 0`), every player's record keeps its id, hp
never increases, `alive` only ever flips to dead, and the pass broadcasts
`player_killed` for a player exactly once exactly when it kills them;
`_respawn_player` changes hp only by resetting it to exactly
`PLAYER_MAX_HP`; and `_kill_player_env` broadcasts exactly one
`player_killed` for an alive target and none for a dead or missing one. -/
theorem claim_C5 (hyp : ℚ → ℚ → ℚ) (cd : Nat → Int) (now dt : ℚ)
    (s : GameServer)
    (hnd : (s.players.map (fun q => q.player_id)).Nodup)
    (hdmg : ∀ pr ∈ s.projectiles, 0 ≤ pr.damage)
    (hinv : ∀ p ∈ s.players, p.alive = true → 0 < p.hp) :
    List.Forall₂ (fun p q =>
        q.player_id = p.player_id ∧ q.hp ≤ p.hp ∧
        (q.alive = true → p.alive = true) ∧
        killedCount p.player_id (tickProjectiles hyp cd now dt s).2 =
          (if p.alive = true ∧ q.alive = false then 1 else 0))
      s.players (tickProjectiles hyp cd now dt s).1.players ∧
    (∀ (now2 : ℚ) (pos : ℚ × ℚ) (s2 : GameServer) (pid : Nat),
      ∀ q ∈ (respawnPlayer now2 pos s2 pid).1.players,
        q ∈ s2.players ∨ q.hp = PLAYER_MAX_HP) ∧
    (∀ (s2 : GameServer) (pid : Nat),
      killedCount pid (killPlayerEnv s2 pid).2 =
        (if (findPlayer s2 pid).any (fun p => p.alive) = true then 1 else 0)) := by
  refine ⟨?_, ?_, ?_⟩
  · obtain ⟨o1, ho1, hF, hids⟩ := tickFold_evol True hyp cd now dt s.projectiles s
      [] [] (fun pr h _ => hdmg pr h) hnd
    rw [List.nil_append] at ho1
    have hout : (tickProjectiles hyp cd now dt s).2 = o1 := ho1
    refine forall₂_imp_mem hF (fun p q hp hr => ?_)
    obtain ⟨hid, hsh, hal, hhp, hkc, hfr⟩ := hr
    obtain ⟨hle, _⟩ := hhp trivial (hinv p hp)
    refine ⟨hid, hle, hal, ?_⟩
    rw [hout]
    exact hkc
  · intro now2 pos s2 pid q hq
    unfold respawnPlayer at hq
    rcases hfk : findPlayer s2 pid with _ | p
    · rw [hfk] at hq
      exact Or.inl hq
    · rw [hfk] at hq
      dsimp only [] at hq
      rcases mem_setPlayer_or _ _ _ hq with h | h
      · exact Or.inl h
      · rw [h]
        exact Or.inr rfl
  · intro s2 pid
    unfold killPlayerEnv
    rcases hfk : findPlayer s2 pid with _ | p
    · simp [killedCount]
    · dsimp only []
      by_cases halive : p.alive = false
      · rw [if_pos halive]
        simp [killedCount, Option.any, halive]
      · rw [if_neg halive]
        dsimp only []
        rw [killedCount_append, killVictim_kc, killedCount_single_kill, if_pos rfl]
        have hal : p.alive = true := by
          revert halive
          cases p.alive <;> simp
        simp [Option.any, hal]

/-- C5 witness: the C4 scenario pass — the victim survives at 30 hp, no
`player_killed` is broadcast. -/
theorem claim_C5_witness :
    List.Forall₂ (fun p q =>
        q.player_id = p.player_id ∧ q.hp ≤ p.hp ∧
        (q.alive = true → p.alive = true) ∧
        killedCount p.player_id (tickProjectiles hypX cd0 1 (1/20) s4).2 =
          (if p.alive = true ∧ q.alive = false then 1 else 0))
      s4.players (tickProjectiles hypX cd0 1 (1/20) s4).1.players :=
  (claim_C5 hypX cd0 1 (1/20) s4 (by decide) (by decide) (by decide)).1

/-! ## C7 — hit eligibility -/

/-- C7: a sub-step never damages the projectile's owner, a player on the
projectile's team, a dead player, or a player whose shield is active
(`now < shield_until`) — any such player's hp is unchanged by the sub-step
— and across a whole `tick_projectiles` pass a player who is dead or
shielded at the tick's timestamp keeps both hp and alive flag unchanged. -/
theorem claim_C7 :
    (∀ (now : ℚ) (cd : Nat → Int) (pid : Nat) (sx sy sub_len : ℚ)
        (s : GameServer) (pr : Projectile) (plr : PlayerState),
      (s.players.map (fun q => q.player_id)).Nodup →
      plr ∈ s.players →
      (plr.player_id = pr.owner_id ∨ plr.team_id = pr.team_id ∨
        plr.alive = false ∨ now < plr.shield_until) →
      ∀ q ∈ (subStep now cd pid sx sy sub_len s pr).srv.players,
        q.player_id = plr.player_id → q.hp = plr.hp) ∧
    (∀ (hyp : ℚ → ℚ → ℚ) (cd : Nat → Int) (now dt : ℚ) (s : GameServer)
        (plr : PlayerState),
      (s.players.map (fun q => q.player_id)).Nodup →
      plr ∈ s.players →
      (plr.alive = false ∨ now < plr.shield_until) →
      ∀ q ∈ (tickProjectiles hyp cd now dt s).1.players,
        q.player_id = plr.player_id → q.hp = plr.hp ∧ q.alive = plr.alive) := by
  constructor
  · intro now cd pid sx sy sub_len s pr plr hnd hmem hcond q hq hid
    unfold subStep at hq
    dsimp only [] at hq
    by_cases h1 : (advanceProj sx sy sub_len pr).range_px ≤ (advanceProj sx sy sub_len pr).dist
    · rw [if_pos h1] at hq
      rw [nodup_player_inj hnd hq hmem hid]
    · rw [if_neg h1] at hq
      by_cases h2 : outOfBounds (advanceProj sx sy sub_len pr) = true
      · rw [if_pos h2] at hq
        rw [nodup_player_inj hnd hq hmem hid]
      · rw [if_neg h2] at hq
        rcases hfp : List.find? (fun v =>
            eligibleTarget now (advanceProj sx sy sub_len pr) v &&
            overlapsPlayer (advanceProj sx sy sub_len pr) v) s.players with _ | vic
        · rw [hfp] at hq
          dsimp only [] at hq
          rcases hfo : List.find? (fun obj =>
              obj.alive && overlapsObject (advanceProj sx sy sub_len pr) obj)
              s.objects with _ | obj
          · rw [hfo] at hq
            dsimp only [] at hq
            rw [nodup_player_inj hnd hq hmem hid]
          · rw [hfo] at hq
            dsimp only [] at hq
            obtain ⟨r, hr, hrid, hrhp, _⟩ := applyObjectHit_other cd s _ obj q hq
            have : r = plr := nodup_player_inj hnd hr hmem (hrid.symm.trans hid)
            rw [hrhp, this]
        · rw [hfp] at hq
          dsimp only [] at hq
          have hpred := List.find?_some hfp
          have hvmem := List.mem_of_find?_eq_some hfp
          rw [Bool.and_eq_true] at hpred
          have helig := hpred.1
          unfold eligibleTarget at helig
          simp only [Bool.and_eq_true, Bool.not_eq_true', Bool.or_eq_false_iff,
            decide_eq_false_iff_not, beq_eq_false_iff_ne, ne_eq] at helig
          have hvne : vic.player_id ≠ plr.player_id := by
            intro hsame
            have : vic = plr := nodup_player_inj hnd hvmem hmem hsame
            subst this
            rcases hcond with hc | hc | hc | hc
            · exact helig.1.1 hc
            · exact helig.1.2 hc
            · rw [helig.2.1] at hc
              cases hc
            · exact helig.2.2 hc
          obtain ⟨r, hr, hrid, hrhp, _⟩ :=
            applyPlayerHit_other pid s (advanceProj sx sy sub_len pr) vic q hq
            (fun h => hvne (h.symm.trans hid))
          have : r = plr := nodup_player_inj hnd hr hmem (hrid.symm.trans hid)
          rw [hrhp, this]
  · intro hyp cd now dt s plr hnd hmem hcond q hq hid
    obtain ⟨o1, ho1, hF, hids⟩ := tickFold_evol False hyp cd now dt s.projectiles s
      [] [] (fun pr _ h => h.elim) hnd
    have hrel : tickEvol False now o1 plr q :=
      forall₂_lookup (fun p q h => h.1) hnd hF hmem hq hid
    exact hrel.2.2.2.2.2 hcond

/-- C7 witness: the C4 projectile flies straight through the shielded
victim of `s7`, whose hp stays 100 and who stays alive. -/
theorem claim_C7_witness :
    victim7 ∈ (tickProjectiles hypX cd0 1 (1/20) s7).1.players ∧
    victim7.hp = victim7.hp ∧ victim7.alive = victim7.alive := by
  refine ⟨by decide, ?_⟩
  exact claim_C7.2 hypX cd0 1 (1/20) s7 victim7 (by decide) (by decide)
    (Or.inr (by norm_num [victim7])) victim7 (by decide) rfl

/-! ## C6 — power-up state exclusivity -/

/-- One power-up tick always leaves the power-up in exactly one of the two
legal states, provided the two `random.uniform` draws are positive (their
source ranges are `[0.4·12, 12) = [4.8, 12)` and `[0.6·15, 1.4·15) =
[9, 21)`, both strictly positive). -/
theorem tickOnePowerUp_exclusive (newPosF : Nat → ℚ × ℚ)
    (newLifeF newRespawnF : Nat → ℚ) (now dt : ℚ)
    (players : List PlayerState) (pu : PowerUp)
    (hL : 0 < newLifeF pu.pu_id) (hR : 0 < newRespawnF pu.pu_id) :
    puExclusive (tickOnePowerUp newPosF newLifeF newRespawnF now dt players pu).1 := by
  unfold tickOnePowerUp
  by_cases h1 : pu.active = false
  · simp only [if_pos h1]
    by_cases h2 : pu.respawn_timer - dt ≤ 0
    · simp only [if_pos h2, puExclusive]
      exact Or.inl ⟨⟨by trivial, hL⟩, by simp⟩
    · simp only [if_neg h2, puExclusive]
      refine Or.inr ⟨⟨h1, by linarith⟩, ?_⟩
      rintro ⟨hta, -⟩
      rw [h1] at hta
      cases hta
  · have h1' : pu.active = true := by
      revert h1
      cases pu.active <;> simp
    simp only [if_neg h1]
    by_cases h2 : pu.lifetime_timer - dt ≤ 0
    · simp only [if_pos h2, puExclusive]
      exact Or.inr ⟨⟨by trivial, hR⟩, by simp⟩
    · simp only [if_neg h2]
      rcases hf : players.find? (fun plr => plr.alive && overlapsPowerUp plr pu) with _ | plr
      · simp only [hf, puExclusive]
        refine Or.inl ⟨⟨h1', by linarith⟩, ?_⟩
        rintro ⟨hfa, -⟩
        rw [h1'] at hfa
        cases hfa
      · simp only [hf, puExclusive]
        exact Or.inr ⟨⟨by trivial, hR⟩, by simp⟩

/-- The `tick_power_ups` fold keeps every processed power-up exclusive. -/
theorem powerUpFold_exclusive (newPosF : Nat → ℚ × ℚ)
    (newLifeF newRespawnF : Nat → ℚ) (now dt : ℚ)
    (hL : ∀ i, 0 < newLifeF i) (hR : ∀ i, 0 < newRespawnF i) :
    ∀ (l : List PowerUp) (acc : List PowerUp × List PlayerState × List Out),
      (∀ pu ∈ acc.1, puExclusive pu) →
      ∀ pu ∈ (l.foldl (fun acc pu =>
          let r1 := tickOnePowerUp newPosF newLifeF newRespawnF now dt acc.2.1 pu
          (acc.1 ++ [r1.1], r1.2.1, acc.2.2 ++ r1.2.2)) acc).1,
        puExclusive pu := by
  intro l
  induction l with
  | nil => exact fun acc hacc pu hpu => hacc pu hpu
  | cons head tail ih =>
    intro acc hacc
    apply ih
    intro pu hpu
    rcases List.mem_append.mp hpu with h | h
    · exact hacc pu h
    · have hpu' : pu = (tickOnePowerUp newPosF newLifeF newRespawnF now dt acc.2.1 head).1 := by
        simpa using h
      rw [hpu']
      exact tickOnePowerUp_exclusive _ _ _ _ _ _ _ (hL _) (hR _)

/-- `puDictSet` only produces entries that were already present or the
newly written one. -/
theorem puDictSet_mem (pus : List PowerUp) (pu : PowerUp) :
    ∀ q ∈ puDictSet pus pu, q ∈ pus ∨ q = pu := by
  unfold puDictSet
  split_ifs with h
  · intro q hq
    rcases List.mem_map.mp hq with ⟨r, hr, hrq⟩
    by_cases hid : r.pu_id = pu.pu_id
    · rw [if_pos hid] at hrq
      exact Or.inr hrq.symm
    · rw [if_neg hid] at hrq
      exact Or.inl (hrq ▸ hr)
  · intro q hq
    rcases List.mem_append.mp hq with h' | h'
    · exact Or.inl h'
    · exact Or.inr (by simpa using h')

/-- C6 (amended): the exclusivity invariant — exactly one of {active with
`lifetime_timer > 0`, inactive with `respawn_timer > 0`} — is produced for
every power-up by `tick_power_ups` (expiry, pickup, reactivation and plain
count-down alike, given the uniform draws in their positive source
ranges), and is established by `start_game` for every power-up whose
initial lifetime `POWER_UP_LIFETIME * (i / NUM_POWER_UPS) + uniform(0,3)`
is positive; the draw `uniform(0, 3.0) = 0` for power-up 0 is the single
initialization case in which it fails (see the counterexample). -/
theorem claim_C6 :
    (∀ (newPosF : Nat → ℚ × ℚ) (newLifeF newRespawnF : Nat → ℚ)
        (now dt : ℚ) (s : GameServer),
      (∀ i, 0 < newLifeF i) → (∀ i, 0 < newRespawnF i) →
      ∀ pu ∈ (tickPowerUps newPosF newLifeF newRespawnF now dt s).1.power_ups,
        puExclusive pu) ∧
    (∀ (now : ℚ) (rnd : StartRand) (s : GameServer),
      s.power_ups = [] →
      (∀ i : Nat, 0 < POWER_UP_LIFETIME * ((i : ℚ) / (NUM_POWER_UPS : ℚ)) + rnd.jitter i) →
      ∀ pu ∈ (startGame now rnd s).1.power_ups, puExclusive pu) := by
  constructor
  · intro newPosF newLifeF newRespawnF now dt s hL hR pu hpu
    exact powerUpFold_exclusive newPosF newLifeF newRespawnF now dt hL hR
      s.power_ups ([], s.players, []) (by simp) pu hpu
  · intro now rnd s hpu0 hj pu hpu
    have hfold : ∀ (l : List Nat) (acc : List PowerUp),
        (∀ q ∈ acc, puExclusive q) →
        ∀ q ∈ (l.foldl (fun (acc : List PowerUp) (i : Nat) =>
            puDictSet acc
              { pu_id := i,
                pu_type := rnd.shuffled.getD (i % rnd.shuffled.length) PUType.speed,
                spawn_x := (rnd.puPos i).1, spawn_y := (rnd.puPos i).2,
                lifetime_timer := POWER_UP_LIFETIME * ((i : ℚ) / (NUM_POWER_UPS : ℚ)) +
                  rnd.jitter i }) acc),
          puExclusive q := by
      intro l
      induction l with
      | nil => exact fun acc hacc q hq => hacc q hq
      | cons head tail ih =>
        intro acc hacc
        apply ih
        intro q hq
        rcases puDictSet_mem _ _ q hq with h | h
        · exact hacc q h
        · rw [h]
          exact Or.inl ⟨⟨rfl, hj head⟩, by simp⟩
    have : (startGame now rnd s).1.power_ups =
        (List.range NUM_POWER_UPS).foldl (fun (acc : List PowerUp) (i : Nat) =>
            puDictSet acc
              { pu_id := i,
                pu_type := rnd.shuffled.getD (i % rnd.shuffled.length) PUType.speed,
                spawn_x := (rnd.puPos i).1, spawn_y := (rnd.puPos i).2,
                lifetime_timer := POWER_UP_LIFETIME * ((i : ℚ) / (NUM_POWER_UPS : ℚ)) +
                  rnd.jitter i }) s.power_ups := rfl
    rw [this, hpu0] at hpu
    exact hfold (List.range NUM_POWER_UPS) [] (by simp) pu hpu

/-- C6 counterexample: `start_game` with the legal draw
`uniform(0, 3.0) = 0` leaves power-up 0 active with `lifetime_timer = 0`
and `respawn_timer = 0` — neither of the two legal states holds, so the
claimed invariant is not established by initialization. -/
theorem claim_C6_cex :
    ∃ pu ∈ (startGame 0 rnd0 sLobby2).1.power_ups,
      pu.active = true ∧ ¬ 0 < pu.lifetime_timer ∧ ¬ puExclusive pu := by
  decide

/-- C6 witness: a mid-match tick keeps a live power-up exclusive, and a
positive-jitter `start_game` establishes exclusivity for power-up 0. -/
theorem claim_C6_witness :
    puExclusive { pu_id := 0, pu_type := .speed, spawn_x := 0, spawn_y := 0,
                  active := true, respawn_timer := 0, lifetime_timer := 3 } ∧
    puExclusive { pu_id := 0, pu_type := .speed, spawn_x := 0, spawn_y := 0,
                  active := true, respawn_timer := 0, lifetime_timer := 1 } := by
  constructor
  · exact claim_C6.1 (fun _ => (0, 0)) (fun _ => 5) (fun _ => 10) 0 1 sPU
      (fun _ => by norm_num) (fun _ => by norm_num) _ (by decide)
  · refine claim_C6.2 0 rnd1 sLobby2 rfl (fun (i : Nat) => ?_) _ (by decide)
    have h0 : (0 : ℚ) ≤ (i : ℚ) / (NUM_POWER_UPS : ℚ) :=
      div_nonneg (Nat.cast_nonneg _) (Nat.cast_nonneg _)
    have h1 : (0 : ℚ) ≤ POWER_UP_LIFETIME * ((i : ℚ) / (NUM_POWER_UPS : ℚ)) :=
      mul_nonneg (by norm_num [POWER_UP_LIFETIME]) h0
    have h2 : rnd1.jitter i = 1 := rfl
    rw [h2]
    linarith

/-! ## C8 — lobby start trigger -/

theorem setPlayer_length (ps : List PlayerState) (p : PlayerState) :
    (setPlayer ps p).length = ps.length := by
  simp [setPlayer]

theorem startGame_started (now : ℚ) (rnd : StartRand) (s : GameServer) :
    (startGame now rnd s).1.game_started = true := rfl

theorem checkAllReady_iff (s : GameServer) :
    checkAllReady s = true ↔
      (2 ≤ s.players.length ∧ ∀ q ∈ s.players, 0 ≤ q.team_id ∧ q.ready = true) := by
  unfold checkAllReady
  by_cases h : s.players.length < 2
  · simp only [if_pos h]
    constructor
    · intro hfalse
      cases hfalse
    · rintro ⟨h2, -⟩
      omega
  · simp only [if_neg h, List.all_eq_true, Bool.and_eq_true, decide_eq_true_eq]
    rw [and_iff_right (by omega : 2 ≤ s.players.length)]

/-- C8: a `ready{true}` message from a registered, teamed player in the
lobby starts the match exactly when at least two players are registered
and — after the sender's flag is set — every registered player has a team
and is ready; with a single registered player the match never starts. -/
theorem claim_C8 (now : ℚ) (rnd : StartRand) (pid : Nat) (s : GameServer)
    (p : PlayerState)
    (hlob : s.game_started = false)
    (hfind : findPlayer s pid = some p)
    (hteam : 0 ≤ p.team_id) :
    ((processMessage now rnd pid (.ready true) s).1.game_started = true ↔
      (2 ≤ s.players.length ∧
        ∀ q ∈ setPlayer s.players ({ p with ready := true }),
          0 ≤ q.team_id ∧ q.ready = true)) ∧
    (s.players.length = 1 →
      (processMessage now rnd pid (.ready true) s).1.game_started = false) := by
  have hcond : s.game_started = false ∧ 0 ≤ p.team_id := ⟨hlob, hteam⟩
  constructor
  · simp only [processMessage, hfind, if_pos hcond]
    by_cases hca :
        checkAllReady { s with players := setPlayer s.players ({ p with ready := true }) } = true
    · rw [if_pos hca]
      simp only [startGame_started, true_iff]
      have := (checkAllReady_iff _).mp hca
      simpa [setPlayer_length] using this
    · rw [if_neg hca]
      simp only [hlob, false_iff]
      rw [checkAllReady_iff] at hca
      simpa [setPlayer_length] using hca
  · intro h1
    simp only [processMessage, hfind, if_pos hcond]
    have hca :
        ¬ checkAllReady { s with players := setPlayer s.players ({ p with ready := true }) } = true := by
      rw [checkAllReady_iff]
      simp [setPlayer_length, h1]
    rw [if_neg hca]
    exact hlob

/-- C8 witness: the two-player lobby starts on the second ready; the
one-player lobby does not. -/
theorem claim_C8_witness :
    (processMessage 0 rnd1 0 (.ready true) sReady).1.game_started = true ∧
    (processMessage 0 rnd1 0 (.ready true) sSolo).1.game_started = false := by
  constructor
  · exact (claim_C8 0 rnd1 0 sReady pR0 rfl rfl (by decide)).1.mpr (by decide)
  · exact (claim_C8 0 rnd1 0 sSolo pR0 rfl rfl (by decide)).2 rfl

/-! ## C10 — pickup discards the held weapon -/

/-- C10: a successful `pick_weapon` (running match, alive registered
sender, existing drop with elapsed pickup delay, within 50 px) overwrites
the sender's held weapon with the drop's, removes exactly that entry from
the dropped-weapon store, creates no drop for the replaced weapon (the
whole remaining state, `next_drop_id` included, is unchanged), and
broadcasts one `weapon_pickup`. -/
theorem claim_C10 (now : ℚ) (rnd : StartRand) (pid : Nat) (s : GameServer)
    (p : PlayerState) (d : Nat) (drop : DroppedWeapon)
    (hstart : s.game_started = true)
    (hfind : findPlayer s pid = some p)
    (halive : p.alive = true)
    (hdrop : s.dropped_weapons.find? (fun w => w.drop_id == d) = some drop)
    (hdelay : drop.pickup_delay ≤ 0)
    (hrange : ¬ (50 * 50 <
      ((p.x + PLAYER_W / 2) - (drop.x + PLAYER_W / 2)) *
        ((p.x + PLAYER_W / 2) - (drop.x + PLAYER_W / 2)) +
      ((p.y + PLAYER_H / 2) - drop.y) * ((p.y + PLAYER_H / 2) - drop.y))) :
    processMessage now rnd pid (.pick_weapon (some d)) s =
      ({ s with
          dropped_weapons :=
            s.dropped_weapons.filter (fun w => !(w.drop_id == drop.drop_id)),
          players := setPlayer s.players ({ p with weapon := drop.weapon_id }) },
       [Out.broadcast (.weapon_pickup drop.drop_id pid drop.weapon_id)]) := by
  have hrange' : (p.x - drop.x) * (p.x - drop.x) +
      (p.y + PLAYER_H / 2 - drop.y) * (p.y + PLAYER_H / 2 - drop.y) ≤ 50 * 50 := by
    have h := not_lt.mp hrange
    have heq : p.x + PLAYER_W / 2 - (drop.x + PLAYER_W / 2) = p.x - drop.x := by ring
    rw [heq] at h
    exact h
  simp [processMessage, hstart, hfind, halive, hdrop, not_lt.mpr hdelay,
    not_lt.mpr hrange']

/-- C10 witness: the sniper carrier picks up the dropped auto rifle; the
sniper is gone, the drop list is emptied, nothing else changes. -/
theorem claim_C10_witness :
    processMessage 0 rnd1 2 (.pick_weapon (some 5)) sPick =
      ({ sPick with
          dropped_weapons :=
            sPick.dropped_weapons.filter (fun w => !(w.drop_id == drop10.drop_id)),
          players := setPlayer sPick.players ({ pPick with weapon := drop10.weapon_id }) },
       [Out.broadcast (.weapon_pickup drop10.drop_id 2 drop10.weapon_id)]) :=
  claim_C10 0 rnd1 2 sPick pPick 5 drop10 rfl rfl rfl rfl (by decide) (by decide)

end Game2D
